import Mathlib

/-!
Verification development for the TypeRunner type-compiler core
(`src/checker/compiler.h`).  The data model (sections, subroutines,
frames, symbols, the `Program` emitter) and the operations the claims
concern are embedded as executable Lean definitions, translated from the
C++ source.  The byte-level encoders, opcode identities and the content
hash live in `instructions.h`/`utils.h`, which are not part of the
provided sources; those few definitions are modelled from the
specification and are marked as such.
-/

namespace Checker

/-- Modelled from the spec: the little-endian byte encoders of
`vm::writeUint16/32/64` and `vm::writeInt32` are defined in `utils.h`,
which is not under `src/`; the spec (§4.A) fixes them as little-endian
writes at either the end of the buffer or at a previously recorded ip.
`uint16Bytes v` is the 2-byte little-endian encoding of `v mod 2^16`. -/
def uint16Bytes (v : Nat) : List Nat :=
  [v % 256, v / 256 % 256]

/-- Modelled from the spec: 4-byte little-endian encoding of `v mod 2^32`. -/
def uint32Bytes (v : Nat) : List Nat :=
  [v % 256, v / 256 % 256, v / 65536 % 256, v / 16777216 % 256]

/-- Modelled from the spec: 8-byte little-endian encoding of `v mod 2^64`. -/
def uint64Bytes (v : Nat) : List Nat :=
  [v % 256, v / 256 % 256, v / 65536 % 256, v / 16777216 % 256,
   v / 4294967296 % 256, v / 1099511627776 % 256,
   v / 281474976710656 % 256, v / 72057594037927936 % 256]

/-- Modelled from the spec: a signed 32-bit value is stored as its
two's-complement representative modulo `2^32`, little-endian. -/
def int32Bytes (v : Int) : List Nat :=
  uint32Bytes (v.emod 4294967296).toNat

/-- Overwrite the bytes of `l` starting at `off` with `bs`
(out-of-range positions are left untouched, mirroring that the C++
back-patches always target previously reserved in-range bytes). -/
def overwriteAt : List Nat → Nat → List Nat → List Nat
  | l, _, [] => l
  | l, off, b :: bs => overwriteAt (l.set off b) (off + 1) bs

/-- Modelled from the spec: `vm::write*` appends when the target offset
is the current end of the buffer and otherwise back-patches in place. -/
def writeBytes (l : List Nat) (off : Nat) (bs : List Nat) : List Nat :=
  if off = l.length then l ++ bs else overwriteAt l off bs

/-- Little-endian read of a u16 (used only in statements, to decode). -/
def readUint16 (l : List Nat) (off : Nat) : Nat :=
  l.getD off 0 + 256 * l.getD (off + 1) 0

/-- Little-endian read of a u32 (used only in statements, to decode). -/
def readUint32 (l : List Nat) (off : Nat) : Nat :=
  l.getD off 0 + 256 * l.getD (off + 1) 0 + 65536 * l.getD (off + 2) 0 +
    16777216 * l.getD (off + 3) 0

/-- The opcodes the compiler core uses.  `instructions.h` is not under
`src/`; per the spec each opcode occupies one byte, so opcode identity
is modelled as an enumeration. -/
inductive OP where
  | Noop
  | Jump
  | Halt
  | SourceMap
  | Subroutine
  | Main
  | Frame
  | FrameEnd
  | FrameReturnJump
  | Return
  | Call
  | TailCall
  | Rest
  | RestReuse
  | JumpCondition
  | Distribute
  | Extends
  | Loads
  | Never
  | Error
  | String
  | Number
  | Union
  | StringLiteral
  | NumberLiteral
  | Any
  | Unknown
  | Widen
  | Set
  | Instantiate
  | CallExpression
  | TypeArgument
  deriving DecidableEq, Repr

/-- Modelled from the spec: the numeric value of each opcode byte is
fixed by the VM contract in `instructions.h` (not under `src/`); the
claims depend only on the values being distinct one-byte codes, so an
arbitrary injective assignment is used. -/
def OP.code : OP → Nat
  | .Noop => 0
  | .Jump => 1
  | .Halt => 2
  | .SourceMap => 3
  | .Subroutine => 4
  | .Main => 5
  | .Frame => 6
  | .FrameEnd => 7
  | .FrameReturnJump => 8
  | .Return => 9
  | .Call => 10
  | .TailCall => 11
  | .Rest => 12
  | .RestReuse => 13
  | .JumpCondition => 14
  | .Distribute => 15
  | .Extends => 16
  | .Loads => 17
  | .Never => 18
  | .Error => 19
  | .String => 20
  | .Number => 21
  | .Union => 22
  | .StringLiteral => 23
  | .NumberLiteral => 24
  | .Any => 25
  | .Unknown => 26
  | .Widen => 27
  | .Set => 28
  | .Instantiate => 29
  | .CallExpression => 30
  | .TypeArgument => 31

/-- Modelled from the spec: error codes embedded via the `Error` opcode;
the core only emits `CannotFind`. -/
inductive ErrorCode where
  | CannotFind
  deriving DecidableEq, Repr

/-- Modelled from the spec: the u16 value of an error code (the concrete
value lives in `instructions.h`, not under `src/`; claims do not depend
on it). -/
def ErrorCode.code : ErrorCode → Nat
  | .CannotFind => 1

/-- `SymbolType` from the source. -/
inductive SymbolType where
  | Variable
  | Function
  | Class
  | Inline
  | Type
  | TypeArgument
  | TypeVariable
  deriving DecidableEq, Repr

/-- `SourceMapEntry` from the source. -/
structure SourceMapEntry where
  bytecodePos : Nat
  sourcePos : Nat
  sourceEnd : Nat
  deriving DecidableEq, Repr

/-- `TypeArgumentUsage` from the source. -/
structure TypeArgumentUsage where
  symbolIndex : Nat
  ip : Nat
  deriving DecidableEq, Repr

/-- `Symbol` from the source.  `routine` holds the index of the attached
subroutine inside `Program.subroutines` (the C++ `shared_ptr` aliases an
element of that vector); `frame` holds the identity tag of the owning
frame (standing for the C++ frame pointer). -/
structure Symbol where
  name : String
  type : SymbolType := .Type
  index : Nat := 0
  pos : Nat := 0
  end_ : Nat := 0
  declarations : Nat := 1
  routine : Option Nat := none
  frame : Nat := 0
  deriving DecidableEq, Repr

/-- `Section` from the source (the in-order branch tree of a
subroutine).  `start`/`end_` are instruction pointers, `next`/`up` are
`-1`-sentinel indices into the owning subroutine's section list.  The
C++ field `isBlockTailCall` is declared without an initializer; every
construction site in the source leaves it effectively false before
`blockTailCall()` may set it, which is how it is modelled here. -/
structure Section where
  start : Nat := 0
  end_ : Nat := 0
  lastOp : OP := .Noop
  ops : Nat := 0
  isBlockTailCall : Bool := false
  hasChild : Bool := false
  typeArgumentUsages : List TypeArgumentUsage := []
  next : Int := -1
  up : Int := -1
  deriving DecidableEq, Repr

instance : Inhabited Section := ⟨{}⟩

/-- `Section::registerTypeArgumentUsage` from the source: scan the
existing usages for one with the same `symbolIndex`; on a hit the source
assigns the new `ip` into that usage's `symbolIndex` field (see C9),
otherwise a fresh `(symbol.index, ip)` usage is appended. -/
def registerUsageList (symbolIndex ip : Nat) :
    List TypeArgumentUsage → Option (List TypeArgumentUsage)
  | [] => none
  | u :: rest =>
    if u.symbolIndex = symbolIndex then
      some ({ u with symbolIndex := ip } :: rest)
    else
      (registerUsageList symbolIndex ip rest).map (u :: ·)

/-- `Section::registerTypeArgumentUsage(Symbol*, ip)` from the source. -/
def Section.registerTypeArgumentUsage (sec : Section) (symbol : Symbol)
    (ip : Nat) : Section :=
  match registerUsageList symbol.index ip sec.typeArgumentUsages with
  | some usages => { sec with typeArgumentUsages := usages }
  | none =>
    { sec with typeArgumentUsages :=
        sec.typeArgumentUsages ++ [⟨symbol.index, ip⟩] }

/-- Replace the element at index `i` (no-op when out of range), the
Lean counterpart of in-place mutation of a vector element. -/
def modifyIdx (l : List α) (i : Nat) (f : α → α) : List α :=
  match l.get? i with
  | some x => l.set i (f x)
  | none => l

/-- `Subroutine` from the source: the per-symbol opcode buffer (a byte
list), source map, identifier, table index, storage address of the
identifier, symbol kind, section tree and the one-shot
ignore-next-section-op flag. -/
structure Subroutine where
  ops : List Nat := []
  sourceMap : List SourceMapEntry := []
  identifier : String := ""
  index : Nat := 0
  nameAddress : Nat := 0
  type : SymbolType := .Type
  sections : List Section := [{}]
  activeSection : Nat := 0
  isIgnoreNextSectionOP : Bool := false
  deriving DecidableEq, Repr

instance : Inhabited Subroutine := ⟨{}⟩

/-- `Subroutine::Subroutine(identifier)` from the source: fresh opcode
buffer and a single root section starting at ip 0 (`up = -1`). -/
def mkSubroutine (identifier : String) : Subroutine :=
  { identifier, sections := [{ start := 0 }] }

/-- `Subroutine::ip()` from the source. -/
def Subroutine.ip (s : Subroutine) : Nat :=
  s.ops.length

/-- `Subroutine::ignoreNextSectionOP()` from the source. -/
def Subroutine.ignoreNextSectionOP (s : Subroutine) : Subroutine :=
  { s with isIgnoreNextSectionOP := true }

/-- `Subroutine::blockTailCall()` from the source. -/
def Subroutine.blockTailCall (s : Subroutine) : Subroutine :=
  let secs := modifyIdx s.sections s.activeSection
      (fun sec => { sec with isBlockTailCall := true })
  { s with sections := secs }

/-- `Subroutine::pushOp(op)` from the source: append the opcode byte
and, unless the one-shot flag is set, update the active section's
`lastOp` and instruction count; the flag always resets. -/
def Subroutine.pushOp (s : Subroutine) (op : OP) : Subroutine :=
  let s1 := { s with ops := s.ops ++ [op.code] }
  let s2 :=
    if s.isIgnoreNextSectionOP then s1
    else
      let secs := modifyIdx s1.sections s1.activeSection
          (fun sec => { sec with lastOp := op, ops := sec.ops + 1 })
      { s1 with sections := secs }
  { s2 with isIgnoreNextSectionOP := false }

/-- `Subroutine::pushSection()` from the source: mark the current
section as having a child, append a child section starting at the
current ip with `up` pointing at the current section, and make it
active. -/
def Subroutine.pushSection (s : Subroutine) : Subroutine :=
  let secs := modifyIdx s.sections s.activeSection
      (fun sec => { sec with hasChild := true })
  let s1 := { s with sections := secs }
  { s1 with
      sections := s1.sections ++ [({ start := s1.ip, up := (s.activeSection : Int) } : Section)],
      activeSection := s1.sections.length }

/-- `Subroutine::end()` from the source: record the current ip as the
active section's end. -/
def Subroutine.endActive (s : Subroutine) : Subroutine :=
  let secs := modifyIdx s.sections s.activeSection
      (fun sec => { sec with end_ := s.ip })
  { s with sections := secs }

/-- `Subroutine::popSection()` from the source: close the last section
at the current ip, return to its parent, and — when the parent has no
`next` sibling yet — append a fresh sibling section (inheriting the
parent's `up`) and make it active. -/
def Subroutine.popSection (s : Subroutine) : Subroutine :=
  let lastIdx := s.sections.length - 1
  let secs1 := modifyIdx s.sections lastIdx
      (fun sec => { sec with end_ := s.ip })
  let s1 := { s with sections := secs1 }
  let upIdx := ((s1.sections.getD lastIdx default).up).toNat
  let s2 := { s1 with activeSection := upIdx }
  if (s2.sections.getD upIdx default).next = -1 then
    let parentUp := (s2.sections.getD upIdx default).up
    let s3 := { s2 with sections := s2.sections ++ [({ start := s2.ip, up := parentUp } : Section)] }
    let secs4 := modifyIdx s3.sections upIdx
        (fun sec => { sec with next := (s3.sections.length - 1 : Nat) })
    let s4 := { s3 with sections := secs4 }
    { s4 with activeSection := s4.sections.length - 1 }
  else
    s2

/-- `Subroutine::ended(section)` from the source, with explicit fuel:
a section is ended when its `next`-sibling chain terminates in a
section that emitted no instructions.  In every state the compiler
builds, `next` indices strictly increase, so `sections.length` fuel
always suffices. -/
def endedF (sections : List Section) : Nat → Section → Bool
  | 0, sec => sec.ops == 0
  | fuel + 1, sec =>
    if sec.next ≥ 0 then
      endedF sections fuel (sections.getD sec.next.toNat default)
    else
      sec.ops == 0

/-- `Subroutine::ended` at the canonical fuel. -/
def ended (sections : List Section) (sec : Section) : Bool :=
  endedF sections sections.length sec

/-- The upward ancestor walk of `Subroutine::optimise` from the source,
with explicit fuel: every ancestor must be ended and none may have
`isBlockTailCall`.  `up` indices strictly decrease in compiler-built
states, so `sections.length + 1` fuel always suffices. -/
def ancestorsTail (sections : List Section) : Nat → Int → Bool
  | 0, _ => true
  | fuel + 1, up =>
    if up < 0 then true
    else
      let c := sections.getD up.toNat default
      if c.isBlockTailCall then false
      else if !ended sections c then false
      else ancestorsTail sections fuel c.up

/-- The tail-section test of `Subroutine::optimise` from the source:
no child, not blocking tail calls, the sibling chain from `next` (when
present) is ended, and the ancestor walk succeeds. -/
def isTailSection (sections : List Section) (sec : Section) : Bool :=
  !sec.hasChild && !sec.isBlockTailCall &&
    !(sec.next ≥ 0 && !ended sections sec) &&
    ancestorsTail sections (sections.length + 1) sec.up

/-- One iteration of the `optimise` loop body on the ops buffer: a tail
section with a trailing `Call` has the byte at `end - 1 - 4 - 2`
rewritten to `TailCall`, and each recorded type-argument usage whose ip
holds `Rest` is rewritten to `RestReuse` (`restRewrite` is the
per-usage rewrite of that second pass). -/
def restRewrite (acc : List Nat) (u : TypeArgumentUsage) : List Nat :=
  if acc.getD u.ip 0 = OP.Rest.code then acc.set u.ip OP.RestReuse.code
  else acc

def optimiseStep (sections : List Section) (ops : List Nat)
    (sec : Section) : List Nat :=
  if isTailSection sections sec then
    let ops1 :=
      if sec.lastOp = OP.Call then
        ops.set (sec.end_ - 1 - 4 - 2) OP.TailCall.code
      else ops
    sec.typeArgumentUsages.foldl restRewrite ops1
  else ops

/-- `Subroutine::optimise()` from the source: the loop over all
sections, mutating only the ops buffer (the section list is read-only
during the pass). -/
def Subroutine.optimise (s : Subroutine) : Subroutine :=
  { s with ops := s.sections.foldl (optimiseStep s.sections) s.ops }

/-- `Subroutine::pushSourceMap` from the source. -/
def Subroutine.pushSourceMap (s : Subroutine) (sourcePos sourceEnd : Nat) :
    Subroutine :=
  { s with sourceMap := s.sourceMap ++ [⟨s.ops.length, sourcePos, sourceEnd⟩] }

/-- `Subroutine::registerTypeArgumentUsage(Symbol*)` from the source. -/
def Subroutine.registerTypeArgumentUsage (s : Subroutine) (symbol : Symbol) :
    Subroutine :=
  let secs := modifyIdx s.sections s.activeSection
      (fun sec => sec.registerTypeArgumentUsage symbol s.ip)
  { s with sections := secs }

/-- `Frame` from the source: a lexical scope.  `tag` is a unique
identity standing for the C++ object address (frame `id`s are not
unique across the tree: siblings share them). -/
structure FrameData where
  conditional : Bool := false
  id : Nat := 0
  tag : Nat := 0
  symbols : List Symbol := []
  deriving DecidableEq, Repr

instance : Inhabited FrameData := ⟨{}⟩

/-- `Program` from the source.  `frames` is the chain of currently open
frames, head = current, last = root (the C++ `frame` pointer plus its
`previous` chain); `activeSubroutines` is the active stack, head = top,
holding indices into `subroutines` (the C++ stack holds aliasing
pointers into that vector); `storage` is the interner's append-only
text list. -/
structure Program where
  ops : List Nat := []
  sourceMap : List SourceMapEntry := []
  storage : List String := []
  storageIndex : Nat := 0
  frames : List FrameData := [{}]
  nextFrameTag : Nat := 1
  activeSubroutines : List Nat := []
  subroutines : List Subroutine := []
  deriving DecidableEq, Repr

instance : Inhabited Program := ⟨{}⟩

/-- `Program::getOPs()` from the source: the ops buffer of the topmost
active subroutine, or the main ops buffer when none is active. -/
def Program.getOPs (p : Program) : List Nat :=
  match p.activeSubroutines with
  | [] => p.ops
  | i :: _ => (p.subroutines.getD i default).ops

/-- Apply `f` to the buffer `getOPs()` designates (main or the top
active subroutine's ops); used by the raw byte writers, which bypass
section book-keeping exactly as the C++ writes through the `getOPs()`
reference do. -/
def Program.modifyOPs (p : Program) (f : List Nat → List Nat) : Program :=
  match p.activeSubroutines with
  | [] => { p with ops := f p.ops }
  | i :: _ =>
    let subs := modifyIdx p.subroutines i (fun s => { s with ops := f s.ops })
    { p with subroutines := subs }

/-- `Program::ip()` from the source. -/
def Program.ip (p : Program) : Nat :=
  p.getOPs.length

/-- `Program::pushOp(op)` from the source: route through the active
subroutine's `pushOp` (with its section book-keeping) or append to
main. -/
def Program.pushOp (p : Program) (op : OP) : Program :=
  match p.activeSubroutines with
  | [] => { p with ops := p.ops ++ [op.code] }
  | i :: _ =>
    let subs := modifyIdx p.subroutines i (fun s => s.pushOp op)
    { p with subroutines := subs }

/-- `Program::pushSourceMap(node)` from the source. -/
def Program.pushSourceMap (p : Program) (pos end_ : Nat) : Program :=
  match p.activeSubroutines with
  | [] => { p with sourceMap := p.sourceMap ++ [⟨p.ops.length, pos, end_⟩] }
  | i :: _ =>
    let subs := modifyIdx p.subroutines i (fun s => s.pushSourceMap pos end_)
    { p with subroutines := subs }

/-- `Program::pushOp(op, node)` from the source: a source-map entry for
the node, then the opcode. -/
def Program.pushOpNode (p : Program) (op : OP) (pos end_ : Nat) : Program :=
  (p.pushSourceMap pos end_).pushOp op

/-- `Program::pushFrame(implicit)` from the source: a `Frame` opcode
unless implicit, then a fresh frame whose `id` is the parent's plus one
chained onto the current one. -/
def Program.pushFrame (p : Program) (implicit : Bool) : Program :=
  let p1 := if implicit then p else p.pushOp OP.Frame
  let cur := p1.frames.headD default
  { p1 with
      frames := { conditional := false, id := cur.id + 1,
                  tag := p1.nextFrameTag, symbols := [] } :: p1.frames,
      nextFrameTag := p1.nextFrameTag + 1 }

/-- `Program::popFrameImplicit()` from the source: drop the current
frame when it has a previous one; the root frame stays. -/
def Program.popFrameImplicit (p : Program) : Program :=
  match p.frames with
  | _ :: g :: rest => { p with frames := g :: rest }
  | _ => p

/-- `Program::popFrame()` from the source: a `FrameEnd` opcode, then the
implicit pop. -/
def Program.popFrame (p : Program) : Program :=
  (p.pushOp OP.FrameEnd).popFrameImplicit

/-- `Program::ignoreNextSectionOP()` from the source. -/
def Program.ignoreNextSectionOP (p : Program) : Program :=
  match p.activeSubroutines with
  | [] => p
  | i :: _ =>
    let subs := modifyIdx p.subroutines i (fun s => s.ignoreNextSectionOP)
    { p with subroutines := subs }

/-- `Program::pushSection()` from the source. -/
def Program.pushSection (p : Program) : Program :=
  match p.activeSubroutines with
  | [] => p
  | i :: _ =>
    let subs := modifyIdx p.subroutines i (fun s => s.pushSection)
    { p with subroutines := subs }

/-- `Program::blockTailCall()` from the source. -/
def Program.blockTailCall (p : Program) : Program :=
  match p.activeSubroutines with
  | [] => p
  | i :: _ =>
    let subs := modifyIdx p.subroutines i (fun s => s.blockTailCall)
    { p with subroutines := subs }

/-- `Program::popSection()` from the source. -/
def Program.popSection (p : Program) : Program :=
  match p.activeSubroutines with
  | [] => p
  | i :: _ =>
    let subs := modifyIdx p.subroutines i (fun s => s.popSection)
    { p with subroutines := subs }

/-- `Program::registerTypeArgumentUsage(symbol)` from the source. -/
def Program.registerTypeArgumentUsage (p : Program) (symbol : Symbol) :
    Program :=
  match p.activeSubroutines with
  | [] => p
  | i :: _ =>
    let subs := modifyIdx p.subroutines i
        (fun s => s.registerTypeArgumentUsage symbol)
    { p with subroutines := subs }

/-- `Program::pushAddress(address, offset)` from the source: a 4-byte
u32 write, appended when `offset == 0` and back-patched otherwise. -/
def Program.pushAddress (p : Program) (address : Nat) (offset : Nat) :
    Program :=
  p.modifyOPs (fun ops =>
    writeBytes ops (if offset = 0 then ops.length else offset)
      (uint32Bytes address))

/-- `Program::pushInt32Address(address, offset)` from the source. -/
def Program.pushInt32Address (p : Program) (address : Int) (offset : Nat) :
    Program :=
  p.modifyOPs (fun ops =>
    writeBytes ops (if offset = 0 then ops.length else offset)
      (int32Bytes address))

/-- `Program::pushUint32(v)` from the source. -/
def Program.pushUint32 (p : Program) (v : Nat) : Program :=
  p.modifyOPs (fun ops => writeBytes ops ops.length (uint32Bytes v))

/-- `Program::pushUint16(v, offset)` from the source. -/
def Program.pushUint16 (p : Program) (v : Nat) (offset : Nat) : Program :=
  p.modifyOPs (fun ops =>
    writeBytes ops (if offset = 0 then ops.length else offset)
      (uint16Bytes v))

/-- `Program::pushError(code, node)` from the source: errors are always
part of main — a `(0, pos, end)` entry on the main source map, then the
`Error` opcode and the u16 error code appended to the main ops buffer,
regardless of any active subroutine. -/
def Program.pushError (p : Program) (code : ErrorCode) (pos end_ : Nat) :
    Program :=
  { p with
      sourceMap := p.sourceMap ++ [⟨0, pos, end_⟩],
      ops := p.ops ++ [OP.Error.code] ++ uint16Bytes code.code }

/-- `Program::pushSymbolAddress(symbol)` from the source: count the
frames from the current one up to the symbol's frame, then write the
u16 frame offset and the u16 symbol index. -/
def Program.pushSymbolAddress (p : Program) (symbol : Symbol) : Program :=
  let frameOffset := (p.frames.takeWhile (fun f => f.tag ≠ symbol.frame)).length
  ((p.pushUint16 frameOffset 0).pushUint16 symbol.index 0)

/-- `Program::findSymbol(identifier)` walk over the frame chain; each
frame is scanned in reverse insertion order so later declarations
shadow earlier ones. -/
def findSymbolInFrames (frames : List FrameData) (name : String) :
    Option Symbol :=
  match frames with
  | [] => none
  | f :: rest =>
    match f.symbols.reverse.find? (fun s => s.name == name) with
    | some s => some s
    | none => findSymbolInFrames rest name

/-- `Program::findSymbol(identifier)` from the source. -/
def Program.findSymbol (p : Program) (name : String) : Option Symbol :=
  findSymbolInFrames p.frames name

/-- `Program::registerStorage(s)` from the source: the running
`storageIndex` starts at `1 + 4` on the first registration; the address
returned is its value before advancing by `8 + 2 + len` (hash + size +
data); the text is appended unconditionally (no deduplication).
Lengths are byte lengths of the text (`string_view::size()`). -/
def strBytes (s : String) : List Nat :=
  s.toUTF8.toList.map (fun b => b.toNat)

/-- `Program::registerStorage(s)` from the source. -/
def Program.registerStorage (p : Program) (s : String) : Nat × Program :=
  let storageIndex := if p.storageIndex = 0 then 1 + 4 else p.storageIndex
  let address := storageIndex
  (address,
    { p with
        storage := p.storage ++ [s],
        storageIndex := storageIndex + 8 + 2 + (strBytes s).length })

/-- `Program::pushStorage(s)` from the source. -/
def Program.pushStorage (p : Program) (s : String) : Program :=
  let (address, p1) := p.registerStorage s
  p1.pushAddress address 0

/-- `Program::pushStringLiteral(s, node)` from the source. -/
def Program.pushStringLiteral (p : Program) (s : String) (pos end_ : Nat) :
    Program :=
  (p.pushOpNode OP.StringLiteral pos end_).pushStorage s

/-- `Program::pushSymbol(name, type, node)` on the current frame, from
the source: when a symbol of the same name exists in the frame and the
requested kind is not `TypeVariable`, its `declarations` counter is
bumped and it is returned; otherwise a fresh symbol is appended with
`index` equal to the frame's current symbol count.  Returns the
symbol's position inside the current frame together with the new
state. -/
def Program.pushSymbolIdx (p : Program) (name : String) (type : SymbolType)
    (pos end_ : Nat) : Nat × Program :=
  let cur := p.frames.headD default
  let res : Nat × List FrameData :=
    match cur.symbols.findIdx?
        (fun v => type != SymbolType.TypeVariable && v.name == name) with
    | some k =>
      (k, modifyIdx p.frames 0 (fun f =>
        let syms := modifyIdx f.symbols k
          (fun v => { v with declarations := v.declarations + 1 })
        { f with symbols := syms }))
    | none =>
      let symbol : Symbol :=
        { name, type, index := cur.symbols.length, pos, end_ := end_,
          frame := cur.tag }
      (cur.symbols.length, modifyIdx p.frames 0 (fun f =>
        { f with symbols := f.symbols ++ [symbol] }))
  (res.1, { p with frames := res.2 })

/-- The symbol snapshot after `pushSymbol`. -/
def Program.symbolAt (p : Program) (k : Nat) : Symbol :=
  ((p.frames.headD default).symbols.getD k { name := "" })

/-- `Program::pushSymbol` returning the symbol value. -/
def Program.pushSymbol (p : Program) (name : String) (type : SymbolType)
    (pos end_ : Nat) : Symbol × Program :=
  let (k, p1) := p.pushSymbolIdx name type pos end_
  (p1.symbolAt k, p1)

/-- `Program::pushSymbolForRoutine(name, type, node)` from the source:
`pushSymbol`, and when the symbol has no routine yet, build a fresh
subroutine carrying the identifier, register the identifier text in
storage as its name address, give it the next table index, append it to
`subroutines` and attach it to the symbol. -/
def Program.pushSymbolForRoutine (p : Program) (name : String)
    (type : SymbolType) (pos end_ : Nat) : Symbol × Program :=
  let (k, p1) := p.pushSymbolIdx name type pos end_
  let symbol := p1.symbolAt k
  match symbol.routine with
  | some _ => (symbol, p1)
  | none =>
    let (nameAddress, p2) := p1.registerStorage name
    let routine : Subroutine :=
      { mkSubroutine name with
          type := type
          nameAddress := nameAddress
          index := p2.subroutines.length }
    let p3 := { p2 with subroutines := p2.subroutines ++ [routine] }
    let newFrames := modifyIdx p3.frames 0 (fun f =>
      let syms := modifyIdx f.symbols k
        (fun v => { v with routine := some routine.index })
      { f with symbols := syms })
    let p4 := { p3 with frames := newFrames }
    (p4.symbolAt k, p4)

/-- `Program::pushSubroutine(name)` from the source: scan only the
CURRENT frame's symbols (in insertion order) for the name; on a hit,
push an implicit frame and push the symbol's routine onto the active
stack, returning the routine index; otherwise raise the fatal
"no symbol found" error.  A hit whose symbol has no routine dereferences
a null pointer in the C++ and is modelled as a distinct fatal error. -/
def Program.pushSubroutine (p : Program) (name : String) :
    Except String (Nat × Program) :=
  match (p.frames.headD default).symbols.find? (fun s => s.name == name) with
  | some s =>
    match s.routine with
    | some idx =>
      let p1 := p.pushFrame true
      .ok (idx, { p1 with activeSubroutines := idx :: p1.activeSubroutines })
    | none => .error "null routine"
  | none => .error ("no symbol found for " ++ name)

/-- `Program::popSubroutine()` from the source: fatal when no
subroutine is active; otherwise pop the implicit frame, require a
non-empty ops buffer, record the active section's end, run
`optimise()`, append `Return` directly to the buffer (bypassing section
book-keeping) and pop the active stack. -/
def Program.popSubroutine (p : Program) : Except String (Subroutine × Program) :=
  match p.activeSubroutines with
  | [] => .error "No active subroutine found"
  | i :: rest =>
    let p1 := p.popFrameImplicit
    let subroutine := p1.subroutines.getD i default
    if subroutine.ops.isEmpty then .error "Routine is empty"
    else
      let subroutine := subroutine.endActive
      let subroutine := subroutine.optimise
      let subroutine := { subroutine with ops := subroutine.ops ++ [OP.Return.code] }
      let p2 := { p1 with
          subroutines := p1.subroutines.set i subroutine,
          activeSubroutines := rest }
      .ok (subroutine, p2)

/-- `Subroutine::getFlags()` from the source (currently always 0). -/
def Subroutine.getFlags (_ : Subroutine) : Nat :=
  0

/-- `Program::build()` from the source: leading `Jump` and u32 target
back-patched to the first byte after the storage block; the storage
entries (`u64` hash, `u16` byte length, the text bytes); the
`SourceMap` opcode with its u32 size and the absolute-position entries
(subroutines in order, then main); the subroutine table; `Main` and its
code address; the concatenated subroutine code; the main code; `Halt`.
The content hash is an external opaque `bytes → u64` utility (not under
`src/`), passed in as a parameter. -/
def Program.buildTail (p : Program) (_hash : String → Nat)
    (bin0 : List Nat) (address0 : Nat) : List Nat :=
  let bin := bin0 ++ [OP.SourceMap.code]
  let sourceMapSize :=
    p.subroutines.foldl (fun a r => a + r.sourceMap.length * (4 * 3)) 0 +
      p.sourceMap.length * (4 * 3)
  let bin := writeBytes bin bin.length (uint32Bytes sourceMapSize)
  let address := address0 + 1 + 4 + sourceMapSize
  let bytecodePosOffset :=
    address + p.subroutines.length * (1 + 4 + 4 + 1) + (1 + 4)
  let acc := p.subroutines.foldl
    (fun (acc : List Nat × Nat) r =>
      let b := r.sourceMap.foldl
        (fun b m =>
          b ++ uint32Bytes (acc.2 + m.bytecodePos) ++
            uint32Bytes m.sourcePos ++ uint32Bytes m.sourceEnd)
        acc.1
      (b, acc.2 + r.ops.length))
    (bin, bytecodePosOffset)
  let bin := p.sourceMap.foldl
    (fun b m =>
      b ++ uint32Bytes (acc.2 + m.bytecodePos) ++ uint32Bytes m.sourcePos ++
        uint32Bytes m.sourceEnd)
    acc.1
  let address := address + 1 + 4
  let address := address + p.subroutines.length * (1 + 4 + 4 + 1)
  let acc2 := p.subroutines.foldl
    (fun (acc2 : List Nat × Nat) r =>
      let b := acc2.1 ++ [OP.Subroutine.code] ++ uint32Bytes r.nameAddress ++
        uint32Bytes acc2.2 ++ [r.getFlags]
      (b, acc2.2 + r.ops.length))
    (bin, address)
  let bin := acc2.1 ++ [OP.Main.code] ++ uint32Bytes acc2.2
  let bin := p.subroutines.foldl (fun b r => b ++ r.ops) bin
  let bin := bin ++ p.ops
  bin ++ [OP.Halt.code]

/-- The leading-jump target of `Program::build()`: the running
`address` after the storage fold (`1 + 4` reserved for the jump, then
`8 + 2 + len` per storage entry) — the offset of the first byte after
the storage block. -/
def Program.storageEnd (p : Program) : Nat :=
  p.storage.foldl (fun a item => a + 8 + 2 + (strBytes item).length) 5

/-- `Program::build()` from the source: leading `Jump` and u32 target
back-patched to the first byte after the storage block; the storage
entries (`u64` hash, `u16` byte length, the text bytes); then the
source-map section, subroutine table, `Main`, the code segments and
`Halt` (`buildTail`, split at the source's "write sourcemap" comment).
The content hash is an external opaque `bytes → u64` utility (not under
`src/`), passed in as a parameter. -/
def Program.build (p : Program) (hash : String → Nat) : List Nat :=
  let bin : List Nat := [OP.Jump.code]
  let bin := writeBytes bin bin.length (uint32Bytes 0)
  let address := p.storageEnd
  let bin := writeBytes bin 1 (uint32Bytes address)
  let bin := p.storage.foldl
    (fun b item =>
      b ++ uint64Bytes (hash item) ++ uint16Bytes (strBytes item).length ++
        strBytes item)
    bin
  p.buildTail hash bin address

/-- The AST fragment the claims exercise (§6.1 of the spec lists the
full node inventory; the embedding carries the node kinds the claims'
code paths consume, each with its `pos`/`end` source span). -/
inductive Node where
  | sourceFile (statements : List Node) (pos end_ : Nat)
  | stringKeyword (pos end_ : Nat)
  | numberKeyword (pos end_ : Nat)
  | unionType (types : List Node) (pos end_ : Nat)
  | typeAliasDeclaration (name : String) (namePos nameEnd : Nat)
      (typeParameters : Option (List Node)) (ty : Node) (pos end_ : Nat)
  | identifier (escapedText : String) (typeArguments : Option (List Node))
      (pos end_ : Nat)
  | typeReference (typeName : String) (namePos nameEnd : Nat)
      (typeArguments : Option (List Node)) (pos end_ : Nat)

mutual

/-- `Compiler::handle(node, program)` from the source, restricted to
the embedded node kinds.  Fatal compilation errors surface as
`Except.error`; embedded (recoverable) errors emit bytecode and return
`Except.ok`. -/
def Compiler.handle : Node → Program → Except String Program
  | .sourceFile stmts _ _, p => Compiler.handleList stmts p
  | .stringKeyword pos e, p => .ok (p.pushOpNode OP.String pos e)
  | .numberKeyword pos e, p => .ok (p.pushOpNode OP.Number pos e)
  | .unionType types pos e, p => do
    let p1 := p.pushFrame false
    let p2 ← Compiler.handleList types p1
    let p3 := p2.pushOpNode OP.Union pos e
    .ok p3.popFrameImplicit
  | .typeAliasDeclaration name _ _ tps ty pos e, p => do
    let (symbol, p1) := p.pushSymbolForRoutine name .Type pos e
    if symbol.declarations > 1 then
      .ok p1
    else do
      let (_, p2) ← p1.pushSubroutine name
      let p3 :=
        match tps with
        | none => p2.blockTailCall
        | some l => if l.length = 0 then p2.blockTailCall else p2
      let p4 ←
        match tps with
        | some l => Compiler.handleList l p3
        | none => .ok p3
      let p5 ← Compiler.handle ty p4
      let (_, p6) ← p5.popSubroutine
      .ok p6
  | .identifier text tyArgs pos e, p =>
    match p.findSymbol text with
    | none => .ok ((p.pushOpNode OP.Never pos e).pushError .CannotFind pos e)
    | some symbol =>
      if symbol.type = .TypeArgument ∨ symbol.type = .TypeVariable then
        .ok ((p.pushOpNode OP.Loads pos e).pushSymbolAddress symbol)
      else do
        let p1 ←
          match tyArgs with
          | some l => Compiler.handleList l p
          | none => .ok p
        let p2 := p1.pushOpNode OP.Call pos e
        match symbol.routine with
        | none => .error "Reference is not a reference to a existing routine."
        | some idx =>
          .ok ((p2.pushAddress idx 0).pushUint16
            (match tyArgs with | some l => l.length | none => 0) 0)
  | .typeReference name npos nend tyArgs _ _, p =>
    match p.findSymbol name with
    | none =>
      .ok ((p.pushOpNode OP.Never npos nend).pushError .CannotFind npos nend)
    | some symbol =>
      if symbol.type = .TypeArgument ∨ symbol.type = .TypeVariable then
        let p1 := (p.pushOpNode OP.Loads npos nend).pushSymbolAddress symbol
        let p2 :=
          if symbol.type = .TypeArgument then p1.registerTypeArgumentUsage symbol
          else p1
        .ok p2
      else do
        let p1 ←
          match tyArgs with
          | some l => Compiler.handleList l p
          | none => .ok p
        let p2 := p1.pushOpNode OP.Call npos nend
        match symbol.routine with
        | none => .error "Reference is not a reference to a existing routine."
        | some idx =>
          .ok ((p2.pushAddress idx 0).pushUint16
            (match tyArgs with | some l => l.length | none => 0) 0)

/-- The statement/member loop of `Compiler::handle`. -/
def Compiler.handleList : List Node → Program → Except String Program
  | [], p => .ok p
  | n :: rest, p => do
    let p1 ← Compiler.handle n p
    Compiler.handleList rest p1

end

/-- `Compiler::compileSourceFile(file)` from the source. -/
def Compiler.compileSourceFile (file : Node) : Except String Program :=
  Compiler.handle file {}

/-- The `SyntaxKind::Identifier` case of `Compiler::handle` from the
source, on the result of the `findSymbol` lookup: unresolved names emit
`Never` + `Error(CannotFind)`; `TypeArgument`/`TypeVariable` symbols
emit `Loads` + the symbol address (and, unlike the `TypeReference`
case, record no type-argument usage); other symbols take the lowered
explicit type arguments (`args`, the recursive `handleList` result, and
their count) and emit `Call` + u32 routine index + u16 count, with a
fatal error when the symbol has no routine.  `Compiler.handle` on an
`identifier` node definitionally equals this applied to the lookup
result (`handle_identifier_eq`). -/
def Compiler.handleIdentifierResolved (sym? : Option Symbol)
    (args : Except String Program) (argCount : Nat) (pos e : Nat)
    (p : Program) : Except String Program :=
  match sym? with
  | none => .ok ((p.pushOpNode OP.Never pos e).pushError .CannotFind pos e)
  | some symbol =>
    if symbol.type = .TypeArgument ∨ symbol.type = .TypeVariable then
      .ok ((p.pushOpNode OP.Loads pos e).pushSymbolAddress symbol)
    else do
      let p1 ← args
      let p2 := p1.pushOpNode OP.Call pos e
      match symbol.routine with
      | none => .error "Reference is not a reference to a existing routine."
      | some idx => .ok ((p2.pushAddress idx 0).pushUint16 argCount 0)

/-- The `SyntaxKind::TypeReference` case of `Compiler::handle` from the
source, on the result of the `findSymbol` lookup: as the identifier
case, but ops carry the `typeName` node's span, and a `TypeArgument`
symbol additionally gets a `TypeArgumentUsage` recorded in the current
subroutine's active section. -/
def Compiler.handleTypeReferenceResolved (sym? : Option Symbol)
    (args : Except String Program) (argCount : Nat) (npos nend : Nat)
    (p : Program) : Except String Program :=
  match sym? with
  | none =>
    .ok ((p.pushOpNode OP.Never npos nend).pushError .CannotFind npos nend)
  | some symbol =>
    if symbol.type = .TypeArgument ∨ symbol.type = .TypeVariable then
      let p1 := (p.pushOpNode OP.Loads npos nend).pushSymbolAddress symbol
      let p2 :=
        if symbol.type = .TypeArgument then p1.registerTypeArgumentUsage symbol
        else p1
      .ok p2
    else do
      let p1 ← args
      let p2 := p1.pushOpNode OP.Call npos nend
      match symbol.routine with
      | none => .error "Reference is not a reference to a existing routine."
      | some idx => .ok ((p2.pushAddress idx 0).pushUint16 argCount 0)

/-- The identifier case of `handle` is the resolved body applied to the
`findSymbol` result, lowered type arguments and their count. -/
theorem handle_identifier_eq (text : String) (tyArgs : Option (List Node))
    (pos e : Nat) (p : Program) :
    Compiler.handle (.identifier text tyArgs pos e) p =
      Compiler.handleIdentifierResolved (p.findSymbol text)
        (match tyArgs with
         | some l => Compiler.handleList l p
         | none => .ok p)
        (match tyArgs with | some l => l.length | none => 0) pos e p := by
  cases tyArgs <;> rfl

/-- The type-reference case of `handle` is the resolved body applied to
the `findSymbol` result, lowered type arguments and their count. -/
theorem handle_typeReference_eq (name : String) (npos nend : Nat)
    (tyArgs : Option (List Node)) (pos e : Nat) (p : Program) :
    Compiler.handle (.typeReference name npos nend tyArgs pos e) p =
      Compiler.handleTypeReferenceResolved (p.findSymbol name)
        (match tyArgs with
         | some l => Compiler.handleList l p
         | none => .ok p)
        (match tyArgs with | some l => l.length | none => 0) npos nend p := by
  cases tyArgs <;> rfl

/-- `frame->conditional = true` on the freshly pushed frame in the
`ConditionalType` case of the source. -/
def Program.setCurrentConditional (p : Program) : Program :=
  match p.frames with
  | f :: rest => { p with frames := { f with conditional := true } :: rest }
  | [] => p

/-- The `SyntaxKind::ConditionalType` case of `Compiler::handle` from
the source, with the four recursive `handle` calls on
`checkType`/`extendsType`/`trueType`/`falseType` abstracted as the
lowering parameters (`lowerCheck` is invoked twice in the distributive
case, exactly as the source calls `handle(n->checkType)` twice).
`dist` carries the distributive probe identifier (`escapedText`, its
span) when `checkType` is a `TypeReference` over a bare identifier. -/
def Compiler.handleConditionalType
    (lowerCheck lowerExtends lowerTrue lowerFalse :
      Program → Except String Program)
    (dist : Option (String × Nat × Nat)) (pos e : Nat) (p : Program) :
    Except String Program := do
  let p := p.pushSection
  let (distributeJumpIp, p) ←
    match dist with
    | some (name, ipos, iend) => do
      let p ← lowerCheck p
      let p := p.blockTailCall
      let p := p.pushFrame true
      let (_, p) := p.pushSymbol name .TypeVariable ipos iend
      let p := p.pushOp OP.Distribute
      let dji := p.ip
      let p := p.pushAddress 0 0
      Except.ok (dji, p)
    | none => Except.ok (0, p)
  let p := p.pushFrame false
  let p := p.setCurrentConditional
  let p ← lowerCheck p
  let p ← lowerExtends p
  let p := p.pushOpNode OP.Extends pos e
  let p := p.pushOp OP.JumpCondition
  let relativeTo := p.ip
  let falseJumpAddressIp := p.ip
  let p := p.pushAddress 0 0
  let p := p.pushSection
  let p ← lowerTrue p
  let p := p.popSection
  let p := p.ignoreNextSectionOP
  let p := p.pushOp OP.Jump
  let trueJumpAddressIp := p.ip
  let p := p.pushAddress 0 0
  let falseProgram := p.ip + 1
  let p := p.pushSection
  let p ← lowerFalse p
  let p := p.popSection
  let falseEndIp := p.ip
  let p := p.pushInt32Address ((falseProgram : Int) - (relativeTo : Int))
    falseJumpAddressIp
  let p := p.pushInt32Address
    ((falseEndIp : Int) - (trueJumpAddressIp : Int) + 1) trueJumpAddressIp
  let p ←
    match dist with
    | some _ => do
      let p := p.pushAddress (falseEndIp - distributeJumpIp + 6) distributeJumpIp
      let p := p.ignoreNextSectionOP
      let p := p.pushOp OP.FrameReturnJump
      let p := p.pushInt32Address
        (-((p.ip : Int) - (distributeJumpIp : Int))) 0
      Except.ok p.popFrameImplicit
    | none => Except.ok (p.ignoreNextSectionOP).popFrame
  Except.ok p.popSection

/-- Instrumentation for the back-patch theorem: a sub-lowering that
appends the given bytes to the current emission buffer, standing for
the net buffer effect of a recursive `handle` call. -/
def appendOps (bs : List Nat) (p : Program) : Except String Program :=
  .ok (p.modifyOPs (fun ops => ops ++ bs))

/-- Every index on the active-subroutine stack addresses an entry of the
subroutine table (always true for compiler-built states: the stack only
ever receives indices of registered subroutines). -/
def Program.activeValid (p : Program) : Prop :=
  ∀ i ∈ p.activeSubroutines, i < p.subroutines.length

/-! ### Basic lemmas about the byte-buffer primitives -/

theorem length_overwriteAt (bs : List Nat) :
    ∀ (l : List Nat) (off : Nat), (overwriteAt l off bs).length = l.length := by
  induction bs with
  | nil => intro l off; rfl
  | cons b bs ih => intro l off; simp [overwriteAt, ih]

theorem length_writeBytes (l : List Nat) (off : Nat) (bs : List Nat) :
    (writeBytes l off bs).length =
      if off = l.length then l.length + bs.length else l.length := by
  unfold writeBytes
  by_cases h : off = l.length <;> simp [h, length_overwriteAt]

theorem writeBytes_append (l bs : List Nat) :
    writeBytes l l.length bs = l ++ bs := by
  simp [writeBytes]

theorem set_at_boundary (b x : Nat) (r : List Nat) :
    ∀ A : List Nat, (A ++ x :: r).set A.length b = A ++ b :: r := by
  intro A
  induction A with
  | nil => rfl
  | cons a A ih => simp [List.set, ih]

theorem overwriteAt_region (B' : List Nat) :
    ∀ (A B C : List Nat), B.length = B'.length →
      overwriteAt (A ++ B ++ C) A.length B' = A ++ B' ++ C := by
  induction B' with
  | nil =>
    intro A B C hlen
    match B, hlen with
    | [], _ => rfl
  | cons b bs ih =>
    intro A B C hlen
    match B, hlen with
    | x :: xs, hlen =>
      show overwriteAt ((A ++ x :: xs ++ C).set A.length b) (A.length + 1) bs
          = A ++ b :: bs ++ C
      have h1 : A ++ x :: xs ++ C = A ++ x :: (xs ++ C) := by simp
      have h2 : (A ++ x :: (xs ++ C)).set A.length b = A ++ b :: (xs ++ C) :=
        set_at_boundary b x (xs ++ C) A
      rw [h1, h2]
      have h3 : A ++ b :: (xs ++ C) = (A ++ [b]) ++ xs ++ C := by simp
      have h4 : A.length + 1 = (A ++ [b]).length := by simp
      rw [h3, h4, ih (A ++ [b]) xs C (by simpa using hlen)]
      simp

theorem writeBytes_region (A B B' C : List Nat) (hlen : B.length = B'.length)
    (hne : B ≠ []) : writeBytes (A ++ B ++ C) A.length B' = A ++ B' ++ C := by
  unfold writeBytes
  have : A.length ≠ (A ++ B ++ C).length := by
    simp only [List.length_append]
    have : 0 < B.length := List.length_pos.2 hne
    omega
  rw [if_neg this, overwriteAt_region B' A B C hlen]

theorem getD_append_left (l r : List Nat) (i : Nat) (h : i < l.length) :
    (l ++ r).getD i 0 = l.getD i 0 := by
  induction l generalizing i with
  | nil => simp at h
  | cons a l ih =>
    match i with
    | 0 => rfl
    | i + 1 =>
      have hi : i < l.length := by simpa using h
      simpa [List.getD] using ih i hi

theorem getD_append_boundary (l r : List Nat) (x : Nat) :
    (l ++ x :: r).getD l.length 0 = x := by
  induction l with
  | nil => rfl
  | cons a l ih => simpa using ih

theorem length_uint32Bytes (v : Nat) : (uint32Bytes v).length = 4 := rfl

theorem length_int32Bytes (v : Int) : (int32Bytes v).length = 4 := rfl

theorem length_uint16Bytes (v : Nat) : (uint16Bytes v).length = 2 := rfl

theorem length_uint64Bytes (v : Nat) : (uint64Bytes v).length = 8 := rfl

theorem readUint32_at (A C : List Nat) (v : Nat) (h : v < 4294967296) :
    readUint32 (A ++ (uint32Bytes v ++ C)) A.length = v := by
  unfold readUint32 uint32Bytes
  simp only [List.cons_append, List.nil_append]
  have h0 : (A ++ (v % 256 :: (v / 256 % 256 :: (v / 65536 % 256 ::
      (v / 16777216 % 256 :: C))))).getD A.length 0 = v % 256 := by
    exact getD_append_boundary ..
  have e1 : A.length + 1 = (A ++ [v % 256]).length := by simp
  have e2 : A.length + 2 = (A ++ [v % 256, v / 256 % 256]).length := by simp
  have e3 : A.length + 3 =
      (A ++ [v % 256, v / 256 % 256, v / 65536 % 256]).length := by simp
  have h1 : (A ++ [v % 256, v / 256 % 256, v / 65536 % 256,
      v / 16777216 % 256] ++ C).getD (A.length + 1) 0 = v / 256 % 256 := by
    rw [e1]
    have : A ++ [v % 256, v / 256 % 256, v / 65536 % 256, v / 16777216 % 256]
        ++ C = (A ++ [v % 256]) ++ v / 256 % 256 :: ([v / 65536 % 256,
          v / 16777216 % 256] ++ C) := by simp
    rw [this]; exact getD_append_boundary ..
  have h2 : (A ++ [v % 256, v / 256 % 256, v / 65536 % 256,
      v / 16777216 % 256] ++ C).getD (A.length + 2) 0 = v / 65536 % 256 := by
    rw [e2]
    have : A ++ [v % 256, v / 256 % 256, v / 65536 % 256, v / 16777216 % 256]
        ++ C = (A ++ [v % 256, v / 256 % 256]) ++ v / 65536 % 256 ::
          ([v / 16777216 % 256] ++ C) := by simp
    rw [this]; exact getD_append_boundary ..
  have h3 : (A ++ [v % 256, v / 256 % 256, v / 65536 % 256,
      v / 16777216 % 256] ++ C).getD (A.length + 3) 0 = v / 16777216 % 256 := by
    rw [e3]
    have : A ++ [v % 256, v / 256 % 256, v / 65536 % 256, v / 16777216 % 256]
        ++ C = (A ++ [v % 256, v / 256 % 256, v / 65536 % 256]) ++
          v / 16777216 % 256 :: C := by simp
    rw [this]; exact getD_append_boundary ..
  have hassoc : A ++ [v % 256, v / 256 % 256, v / 65536 % 256,
      v / 16777216 % 256] ++ C = A ++ (v % 256 :: (v / 256 % 256 ::
        (v / 65536 % 256 :: (v / 16777216 % 256 :: C)))) := by simp
  rw [hassoc] at h1 h2 h3
  rw [h0, h1, h2, h3]
  omega

/-! ### Effect lemmas for the `Program` emitter operations -/

theorem length_modifyIdx (l : List α) (i : Nat) (f : α → α) :
    (modifyIdx l i f).length = l.length := by
  unfold modifyIdx
  cases h : l.get? i <;> simp

theorem get?_set_self (l : List α) (i : Nat) (a : α) (h : i < l.length) :
    (l.set i a).get? i = some a := by
  induction l generalizing i with
  | nil => simp at h
  | cons x l ih =>
    match i with
    | 0 => rfl
    | i + 1 => exact ih i (by simpa using h)

theorem get?_set_ne (l : List α) (i j : Nat) (a : α) (h : i ≠ j) :
    (l.set i a).get? j = l.get? j := by
  induction l generalizing i j with
  | nil => rfl
  | cons x l ih =>
    match i, j with
    | 0, 0 => exact absurd rfl h
    | 0, j + 1 => rfl
    | i + 1, 0 => rfl
    | i + 1, j + 1 => exact ih i j (by omega)

theorem get?_modifyIdx_self (l : List α) (i : Nat) (f : α → α) (x : α)
    (h : l.get? i = some x) : (modifyIdx l i f).get? i = some (f x) := by
  unfold modifyIdx
  rw [h]
  exact get?_set_self l i (f x) (List.get?_eq_some.1 h).1

theorem get?_modifyIdx_ne (l : List α) (i j : Nat) (f : α → α) (h : i ≠ j) :
    (modifyIdx l i f).get? j = l.get? j := by
  unfold modifyIdx
  cases hx : l.get? i with
  | none => rfl
  | some x => exact get?_set_ne l i j (f x) h

theorem getD_modifyIdx_self [Inhabited α] (l : List α) (i : Nat) (f : α → α)
    (h : i < l.length) :
    (modifyIdx l i f).getD i default = f (l.getD i default) := by
  have hx : l.get? i = some (l.get ⟨i, h⟩) := List.get?_eq_get h
  have h2 := get?_modifyIdx_self l i f _ hx
  rw [List.get?_eq_getElem?] at h2 hx
  simp [List.getD_eq_getElem?_getD, h2, hx]

theorem active_pushOp (p : Program) (op : OP) :
    (p.pushOp op).activeSubroutines = p.activeSubroutines := by
  unfold Program.pushOp
  cases h : p.activeSubroutines <;> simp

theorem subLen_pushOp (p : Program) (op : OP) :
    (p.pushOp op).subroutines.length = p.subroutines.length := by
  unfold Program.pushOp
  cases h : p.activeSubroutines <;> simp [length_modifyIdx]

theorem frames_pushOp (p : Program) (op : OP) :
    (p.pushOp op).frames = p.frames := by
  unfold Program.pushOp
  cases h : p.activeSubroutines <;> simp

theorem ops_subPushOp (s : Subroutine) (op : OP) :
    (s.pushOp op).ops = s.ops ++ [op.code] := by
  unfold Subroutine.pushOp
  by_cases h : s.isIgnoreNextSectionOP <;> simp [h]

theorem getOPs_pushOp (p : Program) (op : OP) (hv : p.activeValid) :
    (p.pushOp op).getOPs = p.getOPs ++ [op.code] := by
  unfold Program.pushOp Program.getOPs
  cases h : p.activeSubroutines with
  | nil => simp
  | cons i rest =>
    have hi : i < p.subroutines.length := hv i (h ▸ List.mem_cons_self i rest)
    have hx : p.subroutines.get? i = some (p.subroutines.get ⟨i, hi⟩) :=
      List.get?_eq_get hi
    have h2 := get?_modifyIdx_self p.subroutines i (fun s => s.pushOp op) _ hx
    rw [List.get?_eq_getElem?] at h2 hx
    simp [List.getD_eq_getElem?_getD, h2, hx, ops_subPushOp]

theorem active_modifyOPs (p : Program) (f : List Nat → List Nat) :
    (p.modifyOPs f).activeSubroutines = p.activeSubroutines := by
  unfold Program.modifyOPs
  cases h : p.activeSubroutines <;> simp

theorem subLen_modifyOPs (p : Program) (f : List Nat → List Nat) :
    (p.modifyOPs f).subroutines.length = p.subroutines.length := by
  unfold Program.modifyOPs
  cases h : p.activeSubroutines <;> simp [length_modifyIdx]

theorem frames_modifyOPs (p : Program) (f : List Nat → List Nat) :
    (p.modifyOPs f).frames = p.frames := by
  unfold Program.modifyOPs
  cases h : p.activeSubroutines <;> simp

theorem getOPs_modifyOPs (p : Program) (f : List Nat → List Nat)
    (hv : p.activeValid) : (p.modifyOPs f).getOPs = f p.getOPs := by
  unfold Program.modifyOPs Program.getOPs
  cases h : p.activeSubroutines with
  | nil => simp
  | cons i rest =>
    have hi : i < p.subroutines.length := hv i (h ▸ List.mem_cons_self i rest)
    have hx : p.subroutines.get? i = some (p.subroutines.get ⟨i, hi⟩) :=
      List.get?_eq_get hi
    have h2 := get?_modifyIdx_self p.subroutines i
      (fun s => { s with ops := f s.ops }) _ hx
    rw [List.get?_eq_getElem?] at h2 hx
    simp [List.getD_eq_getElem?_getD, h2, hx]

theorem getOPs_pushSourceMap (p : Program) (pos e : Nat) :
    (p.pushSourceMap pos e).getOPs = p.getOPs := by
  cases h : p.activeSubroutines with
  | nil => simp [Program.pushSourceMap, Program.getOPs, h]
  | cons i rest =>
    cases hx : p.subroutines.get? i with
    | none =>
      rw [List.get?_eq_getElem?] at hx
      simp [Program.pushSourceMap, Program.getOPs, h, modifyIdx,
        List.get?_eq_getElem?, hx]
    | some x =>
      have h2 := get?_modifyIdx_self p.subroutines i
        (fun s => s.pushSourceMap pos e) x hx
      rw [List.get?_eq_getElem?] at h2 hx
      simp only [Program.pushSourceMap, Program.getOPs, h,
        List.getD_eq_getElem?_getD]
      rw [h2, hx]
      rfl

theorem active_pushSourceMap (p : Program) (pos e : Nat) :
    (p.pushSourceMap pos e).activeSubroutines = p.activeSubroutines := by
  unfold Program.pushSourceMap
  cases h : p.activeSubroutines <;> simp

theorem subLen_pushSourceMap (p : Program) (pos e : Nat) :
    (p.pushSourceMap pos e).subroutines.length = p.subroutines.length := by
  unfold Program.pushSourceMap
  cases h : p.activeSubroutines <;> simp [length_modifyIdx]

theorem frames_pushSourceMap (p : Program) (pos e : Nat) :
    (p.pushSourceMap pos e).frames = p.frames := by
  unfold Program.pushSourceMap
  cases h : p.activeSubroutines <;> simp

theorem activeValid_pushSourceMap (p : Program) (pos e : Nat)
    (hv : p.activeValid) : (p.pushSourceMap pos e).activeValid := by
  intro i hi
  rw [active_pushSourceMap] at hi
  rw [subLen_pushSourceMap]
  exact hv i hi

theorem getOPs_pushOpNode (p : Program) (op : OP) (pos e : Nat)
    (hv : p.activeValid) :
    (p.pushOpNode op pos e).getOPs = p.getOPs ++ [op.code] := by
  unfold Program.pushOpNode
  rw [getOPs_pushOp _ _ (activeValid_pushSourceMap p pos e hv),
    getOPs_pushSourceMap]

/-- The shared shape of the `Program` operations that only touch the
top active subroutine. -/
def subPattern (p : Program) (f : Subroutine → Subroutine) : Program :=
  match p.activeSubroutines with
  | [] => p
  | i :: _ => { p with subroutines := modifyIdx p.subroutines i f }

theorem pushSection_eq (p : Program) :
    p.pushSection = subPattern p (fun s => s.pushSection) := rfl

theorem popSection_eq (p : Program) :
    p.popSection = subPattern p (fun s => s.popSection) := rfl

theorem blockTailCall_eq (p : Program) :
    p.blockTailCall = subPattern p (fun s => s.blockTailCall) := rfl

theorem ignoreNextSectionOP_eq (p : Program) :
    p.ignoreNextSectionOP = subPattern p (fun s => s.ignoreNextSectionOP) := rfl

theorem registerTypeArgumentUsage_eq (p : Program) (symbol : Symbol) :
    p.registerTypeArgumentUsage symbol =
      subPattern p (fun s => s.registerTypeArgumentUsage symbol) := rfl

theorem active_subPattern (p : Program) (f : Subroutine → Subroutine) :
    (subPattern p f).activeSubroutines = p.activeSubroutines := by
  unfold subPattern
  cases h : p.activeSubroutines <;> simp [h]

theorem subLen_subPattern (p : Program) (f : Subroutine → Subroutine) :
    (subPattern p f).subroutines.length = p.subroutines.length := by
  unfold subPattern
  cases h : p.activeSubroutines <;> simp [h, length_modifyIdx]

theorem frames_subPattern (p : Program) (f : Subroutine → Subroutine) :
    (subPattern p f).frames = p.frames := by
  unfold subPattern
  cases h : p.activeSubroutines <;> simp [h]

theorem ops_subPattern (p : Program) (f : Subroutine → Subroutine) :
    (subPattern p f).ops = p.ops := by
  unfold subPattern
  cases h : p.activeSubroutines <;> simp [h]

theorem getOPs_subPattern (p : Program) (f : Subroutine → Subroutine)
    (hops : ∀ s, (f s).ops = s.ops) : (subPattern p f).getOPs = p.getOPs := by
  cases h : p.activeSubroutines with
  | nil => simp [subPattern, Program.getOPs, h]
  | cons i rest =>
    cases hx : p.subroutines.get? i with
    | none =>
      rw [List.get?_eq_getElem?] at hx
      simp [subPattern, Program.getOPs, h, modifyIdx,
        List.get?_eq_getElem?, hx]
    | some x =>
      have h2 := get?_modifyIdx_self p.subroutines i f x hx
      rw [List.get?_eq_getElem?] at h2 hx
      simp only [subPattern, Program.getOPs, h, List.getD_eq_getElem?_getD]
      rw [h2, hx]
      simp [hops]

theorem activeValid_of (p q : Program)
    (ha : q.activeSubroutines = p.activeSubroutines)
    (hs : q.subroutines.length = p.subroutines.length)
    (hv : p.activeValid) : q.activeValid := by
  intro i hi
  rw [ha] at hi
  rw [hs]
  exact hv i hi

theorem ops_subPushSection (s : Subroutine) : (s.pushSection).ops = s.ops := rfl

theorem ops_subPopSection (s : Subroutine) : (s.popSection).ops = s.ops := by
  unfold Subroutine.popSection
  dsimp only
  split <;> rfl

theorem ops_subBlockTailCall (s : Subroutine) :
    (s.blockTailCall).ops = s.ops := rfl

theorem ops_subIgnore (s : Subroutine) :
    (s.ignoreNextSectionOP).ops = s.ops := rfl

theorem ops_subRegisterUsage (s : Subroutine) (symbol : Symbol) :
    (s.registerTypeArgumentUsage symbol).ops = s.ops := rfl

theorem getOPs_pushFrame_true (p : Program) :
    (p.pushFrame true).getOPs = p.getOPs := by
  cases h : p.activeSubroutines <;>
    simp [Program.pushFrame, Program.getOPs, h]

theorem active_pushFrame (p : Program) (b : Bool) :
    (p.pushFrame b).activeSubroutines = p.activeSubroutines := by
  cases b <;> simp [Program.pushFrame, active_pushOp]

theorem subLen_pushFrame (p : Program) (b : Bool) :
    (p.pushFrame b).subroutines.length = p.subroutines.length := by
  cases b <;> simp [Program.pushFrame, subLen_pushOp]

theorem getOPs_pushFrame_false (p : Program) (hv : p.activeValid) :
    (p.pushFrame false).getOPs = p.getOPs ++ [OP.Frame.code] := by
  have : (p.pushFrame false).getOPs = (p.pushOp OP.Frame).getOPs := by
    cases h : (p.pushOp OP.Frame).activeSubroutines <;>
      simp [Program.pushFrame, Program.getOPs, h]
  rw [this, getOPs_pushOp p OP.Frame hv]

theorem getOPs_popFrameImplicit (p : Program) :
    (p.popFrameImplicit).getOPs = p.getOPs := by
  unfold Program.popFrameImplicit
  cases h : p.frames with
  | nil => rfl
  | cons f rest =>
    cases rest with
    | nil => rfl
    | cons g rest' =>
      cases hx : p.activeSubroutines <;> simp [Program.getOPs, hx]

theorem active_popFrameImplicit (p : Program) :
    (p.popFrameImplicit).activeSubroutines = p.activeSubroutines := by
  unfold Program.popFrameImplicit
  cases h : p.frames with
  | nil => rfl
  | cons f rest => cases rest <;> simp

theorem subs_popFrameImplicit (p : Program) :
    (p.popFrameImplicit).subroutines = p.subroutines := by
  unfold Program.popFrameImplicit
  cases h : p.frames with
  | nil => rfl
  | cons f rest => cases rest <;> simp

theorem getOPs_setCurrentConditional (p : Program) :
    (p.setCurrentConditional).getOPs = p.getOPs := by
  unfold Program.setCurrentConditional
  cases h : p.frames with
  | nil => rfl
  | cons f rest => cases hx : p.activeSubroutines <;> simp [Program.getOPs, hx]

theorem active_setCurrentConditional (p : Program) :
    (p.setCurrentConditional).activeSubroutines = p.activeSubroutines := by
  unfold Program.setCurrentConditional
  cases h : p.frames <;> simp

theorem subs_setCurrentConditional (p : Program) :
    (p.setCurrentConditional).subroutines = p.subroutines := by
  unfold Program.setCurrentConditional
  cases h : p.frames <;> simp

theorem snd_pushSymbolIdx_getOPs (p : Program) (name : String)
    (type : SymbolType) (pos e : Nat) :
    ((p.pushSymbolIdx name type pos e).2).getOPs = p.getOPs := by
  cases hx : p.activeSubroutines <;>
    simp [Program.pushSymbolIdx, Program.getOPs, hx]

theorem snd_pushSymbolIdx_active (p : Program) (name : String)
    (type : SymbolType) (pos e : Nat) :
    ((p.pushSymbolIdx name type pos e).2).activeSubroutines =
      p.activeSubroutines := by
  simp [Program.pushSymbolIdx]

theorem snd_pushSymbolIdx_subs (p : Program) (name : String)
    (type : SymbolType) (pos e : Nat) :
    ((p.pushSymbolIdx name type pos e).2).subroutines = p.subroutines := by
  simp [Program.pushSymbolIdx]

theorem snd_pushSymbol_getOPs (p : Program) (name : String)
    (type : SymbolType) (pos e : Nat) :
    ((p.pushSymbol name type pos e).2).getOPs = p.getOPs := by
  unfold Program.pushSymbol
  exact snd_pushSymbolIdx_getOPs ..

theorem snd_pushSymbol_active (p : Program) (name : String)
    (type : SymbolType) (pos e : Nat) :
    ((p.pushSymbol name type pos e).2).activeSubroutines =
      p.activeSubroutines := by
  unfold Program.pushSymbol
  exact snd_pushSymbolIdx_active ..

theorem snd_pushSymbol_subs (p : Program) (name : String)
    (type : SymbolType) (pos e : Nat) :
    ((p.pushSymbol name type pos e).2).subroutines = p.subroutines := by
  unfold Program.pushSymbol
  exact snd_pushSymbolIdx_subs ..

/-! ### C7 — storage interner addressing -/

/-- C7: `registerStorage` returns `5 = 1 + 4` on the first registration
of a compilation (`storageIndex` still 0, as in a fresh `Program`);
every registration returns the value of `storageIndex` before it is
advanced by `8 + 2 + len(text)`; and no deduplication is performed, so
registering the same text twice appends two entries and returns two
distinct addresses. -/
theorem registerStorage_addressing (p : Program) (s : String) :
    (({} : Program).registerStorage s).1 = 1 + 4 ∧
    (p.registerStorage s).1 =
      (if p.storageIndex = 0 then 1 + 4 else p.storageIndex) ∧
    (p.registerStorage s).2.storageIndex =
      (p.registerStorage s).1 + 8 + 2 + (strBytes s).length ∧
    (p.registerStorage s).2.storage = p.storage ++ [s] ∧
    (((p.registerStorage s).2).registerStorage s).1 =
      (p.registerStorage s).1 + 8 + 2 + (strBytes s).length ∧
    (((p.registerStorage s).2).registerStorage s).1 ≠ (p.registerStorage s).1 ∧
    (((p.registerStorage s).2).registerStorage s).2.storage =
      p.storage ++ [s, s] := by
  refine ⟨rfl, ?_, ?_, ?_, ?_, ?_, ?_⟩ <;>
    by_cases h : p.storageIndex = 0 <;>
      simp [Program.registerStorage, h] <;> omega

/-! ### C9 — TypeArgumentUsage pairing (repeat registration) -/

/-- A section holding one correctly paired usage: symbol index 0 was
registered at ip 5. -/
def c9Section : Section :=
  { typeArgumentUsages := [⟨0, 5⟩] }

/-- The type-argument symbol (frame index 0) being re-registered. -/
def c9Symbol : Symbol :=
  { name := "T", type := .TypeArgument, index := 0 }

/-- C9: the claim that a `TypeArgumentUsage` always pairs the symbol's
frame index with an instruction pointer fails on a repeated
registration: re-registering symbol index 0 at ip 9 makes the source
assign the ip into the usage's `symbolIndex` field
(`usage.symbolIndex = ip;`), leaving `ip` stale — the stored usage
becomes `(9, 5)`, whose `symbolIndex` is no longer the symbol's
index. -/
theorem registerTypeArgumentUsage_repeat_corrupts :
    ((c9Section.registerTypeArgumentUsage c9Symbol 9).typeArgumentUsages =
      [{ symbolIndex := 9, ip := 5 }]) ∧
    ∀ u ∈ (c9Section.registerTypeArgumentUsage c9Symbol 9).typeArgumentUsages,
      u.symbolIndex ≠ c9Symbol.index := by
  constructor
  · rfl
  · decide

/-! ### C10 — popFrame / popFrameImplicit on the root frame -/

/-- C10: when the current frame is the root frame (no previous frame),
`popFrame` still emits the `FrameEnd` opcode but leaves the frame chain
unchanged, and `popFrameImplicit` changes nothing at all (no opcode, no
frame change). -/
theorem popFrame_at_root (p : Program) (f : FrameData)
    (hroot : p.frames = [f]) (hv : p.activeValid) :
    (p.popFrame).frames = p.frames ∧
    (p.popFrame).getOPs = p.getOPs ++ [OP.FrameEnd.code] ∧
    p.popFrameImplicit = p := by
  have himpl : p.popFrameImplicit = p := by
    unfold Program.popFrameImplicit
    rw [hroot]
  have hframes : (p.pushOp OP.FrameEnd).frames = [f] := by
    rw [frames_pushOp, hroot]
  have hpop : p.popFrame = p.pushOp OP.FrameEnd := by
    unfold Program.popFrame Program.popFrameImplicit
    rw [hframes]
  refine ⟨?_, ?_, himpl⟩
  · rw [hpop, frames_pushOp]
  · rw [hpop, getOPs_pushOp p OP.FrameEnd hv]

/-- Witness for C10 at the initial program state (root frame only). -/
theorem popFrame_at_root_witness :
    (({} : Program).popFrame).frames = ({} : Program).frames ∧
    (({} : Program).popFrame).getOPs =
      ({} : Program).getOPs ++ [OP.FrameEnd.code] ∧
    ({} : Program).popFrameImplicit = ({} : Program) :=
  popFrame_at_root {} {} rfl (fun i hi => by simp at hi)

/-! ### C3 — scenario S1: `type T = string | number;` -/

/-- The AST of scenario S1, `type T = string | number;` (spans are the
character offsets in that source text). -/
def s1Ast : Node :=
  .sourceFile [.typeAliasDeclaration "T" 5 6 none
    (.unionType [.stringKeyword 9 15, .numberKeyword 18 24] 9 24) 0 25] 0 26

/-- C3 counterexample: the claimed opcode sequence for T's subroutine —
`Frame, String, Number, Union, FrameEnd, Return` — is not what
compiling S1 produces: the union lowering ends with `popFrameImplicit`,
so no `FrameEnd` byte is emitted before the `Return`. -/
theorem s1_claimed_sequence_refuted :
    (match Compiler.compileSourceFile s1Ast with
     | .ok p => p.subroutines.map (fun s => s.ops)
     | .error _ => []) ≠
      [[OP.Frame.code, OP.String.code, OP.Number.code, OP.Union.code,
        OP.FrameEnd.code, OP.Return.code]] := by
  decide

/-- C3 amended: compiling `type T = string | number;` produces exactly
one subroutine, named `T`, whose opcode sequence after `popSubroutine`
is exactly `Frame, String, Number, Union, Return` (the `Union` opcode
itself pops the VM frame; no `FrameEnd` is emitted). -/
theorem s1_compilation_result :
    (match Compiler.compileSourceFile s1Ast with
     | .ok p => p.subroutines.map (fun s => (s.identifier, s.ops))
     | .error _ => []) =
      [("T", [OP.Frame.code, OP.String.code, OP.Number.code, OP.Union.code,
        OP.Return.code])] := by
  decide

/-! ### C8 — pushSubroutine symbol search -/

/-- Root frame of the C8 counterexample: holds symbol "A" with an
attached routine. -/
def c8Root : FrameData :=
  { id := 0, tag := 0,
    symbols := [{ name := "A", type := .Type, index := 0,
                  routine := some 0, frame := 0 }] }

/-- A child frame (the current frame) with no symbols of its own. -/
def c8Child : FrameData :=
  { id := 1, tag := 1, symbols := [] }

/-- Program state for the C8 counterexample: current frame is the empty
child, "A" lives only in the enclosing root frame. -/
def c8Program : Program :=
  { frames := [c8Child, c8Root], nextFrameTag := 2,
    subroutines := [mkSubroutine "A"] }

/-- C8 counterexample: "A" IS in the current frame chain — `findSymbol`
resolves it in the enclosing root frame — yet `pushSubroutine "A"`
raises the compilation-fatal error, because its loop scans only
`frame->symbols` of the current frame and never follows `previous`. -/
theorem pushSubroutine_chain_refuted :
    (c8Program.findSymbol "A").isSome = true ∧
    c8Program.pushSubroutine "A" = .error "no symbol found for A" := by
  constructor
  · rfl
  · rfl

/-- C8 amended: `push_subroutine(name)` searches only the CURRENT
frame's own symbols (not the enclosing chain), and raises the
compilation-fatal error exactly when the name is not among the current
frame's symbols.  (The hypothesis that name hits carry routines holds
in all compiler-built states, where symbols pushed for routines get one
attached before `pushSubroutine` runs.) -/
theorem pushSubroutine_current_frame_only (p : Program) (name : String)
    (hroutine : ∀ s ∈ (p.frames.headD default).symbols,
      s.name = name → s.routine ≠ none) :
    (∃ r, p.pushSubroutine name = .ok r) ↔
      ∃ s ∈ (p.frames.headD default).symbols, s.name = name := by
  unfold Program.pushSubroutine
  cases hfind : (p.frames.headD default).symbols.find?
      (fun s => s.name == name) with
  | none =>
    constructor
    · rintro ⟨r, hr⟩
      simp at hr
    · rintro ⟨s, hs, hname⟩
      have := List.find?_eq_none.1 hfind s hs
      simp [hname] at this
  | some s =>
    have hmem : s ∈ (p.frames.headD default).symbols :=
      List.mem_of_find?_eq_some hfind
    have hname : s.name = name := by
      have := List.find?_some hfind
      simpa using this
    cases hr : s.routine with
    | none => exact absurd hr (hroutine s hmem hname)
    | some idx =>
      simp only [hr]
      constructor
      · intro _
        exact ⟨s, hmem, hname⟩
      · intro _
        exact ⟨_, rfl⟩

/-- Witness for C8's amended theorem: a current frame holding "A" with
a routine, where `pushSubroutine "A"` succeeds. -/
theorem pushSubroutine_current_frame_only_witness :
    (∀ s ∈ ((c8Program.popFrameImplicit).frames.headD default).symbols,
      s.name = "A" → s.routine ≠ none) ∧
    ((∃ r, (c8Program.popFrameImplicit).pushSubroutine "A" = .ok r) ↔
      ∃ s ∈ ((c8Program.popFrameImplicit).frames.headD default).symbols,
        s.name = "A") :=
  ⟨by decide, pushSubroutine_current_frame_only c8Program.popFrameImplicit "A"
    (by decide)⟩

/-! ### Further effect lemmas for the not-found / Loads emission paths -/

theorem ops_main_pushOp (p : Program) (op : OP)
    (h : p.activeSubroutines ≠ []) : (p.pushOp op).ops = p.ops := by
  unfold Program.pushOp
  cases hx : p.activeSubroutines with
  | nil => exact absurd hx h
  | cons i rest => simp

theorem ops_main_pushSourceMap (p : Program) (a b : Nat)
    (h : p.activeSubroutines ≠ []) : (p.pushSourceMap a b).ops = p.ops := by
  unfold Program.pushSourceMap
  cases hx : p.activeSubroutines with
  | nil => exact absurd hx h
  | cons i rest => simp

theorem sourceMapMain_pushOp (p : Program) (op : OP) :
    (p.pushOp op).sourceMap = p.sourceMap := by
  unfold Program.pushOp
  cases hx : p.activeSubroutines <;> simp

theorem sourceMapMain_pushSourceMap (p : Program) (a b : Nat)
    (h : p.activeSubroutines ≠ []) :
    (p.pushSourceMap a b).sourceMap = p.sourceMap := by
  unfold Program.pushSourceMap
  cases hx : p.activeSubroutines with
  | nil => exact absurd hx h
  | cons i rest => simp

theorem active_pushOpNode (p : Program) (op : OP) (a b : Nat) :
    (p.pushOpNode op a b).activeSubroutines = p.activeSubroutines := by
  unfold Program.pushOpNode
  rw [active_pushOp, active_pushSourceMap]

theorem subLen_pushOpNode (p : Program) (op : OP) (a b : Nat) :
    (p.pushOpNode op a b).subroutines.length = p.subroutines.length := by
  unfold Program.pushOpNode
  rw [subLen_pushOp, subLen_pushSourceMap]

theorem frames_pushOpNode (p : Program) (op : OP) (a b : Nat) :
    (p.pushOpNode op a b).frames = p.frames := by
  unfold Program.pushOpNode
  rw [frames_pushOp, frames_pushSourceMap]

theorem ops_main_pushOpNode (p : Program) (op : OP) (a b : Nat)
    (h : p.activeSubroutines ≠ []) : (p.pushOpNode op a b).ops = p.ops := by
  unfold Program.pushOpNode
  rw [ops_main_pushOp _ _ (by rw [active_pushSourceMap]; exact h),
    ops_main_pushSourceMap _ _ _ h]

theorem sourceMapMain_pushOpNode (p : Program) (op : OP) (a b : Nat)
    (h : p.activeSubroutines ≠ []) :
    (p.pushOpNode op a b).sourceMap = p.sourceMap := by
  unfold Program.pushOpNode
  rw [sourceMapMain_pushOp, sourceMapMain_pushSourceMap _ _ _ h]

theorem pushError_ops (p : Program) (c : ErrorCode) (a b : Nat) :
    (p.pushError c a b).ops = p.ops ++ [OP.Error.code] ++ uint16Bytes c.code := by
  simp [Program.pushError]

theorem pushError_sourceMap (p : Program) (c : ErrorCode) (a b : Nat) :
    (p.pushError c a b).sourceMap = p.sourceMap ++ [⟨0, a, b⟩] := rfl

theorem pushError_subs (p : Program) (c : ErrorCode) (a b : Nat) :
    (p.pushError c a b).subroutines = p.subroutines := rfl

theorem pushError_active (p : Program) (c : ErrorCode) (a b : Nat) :
    (p.pushError c a b).activeSubroutines = p.activeSubroutines := rfl

theorem getOPs_pushError (p : Program) (c : ErrorCode) (a b i : Nat)
    (rest : List Nat) (hact : p.activeSubroutines = i :: rest) :
    (p.pushError c a b).getOPs = p.getOPs := by
  unfold Program.getOPs
  rw [pushError_active, pushError_subs]
  simp [hact]

theorem subAt_pushSourceMap (p : Program) (a b i : Nat) (rest : List Nat)
    (hact : p.activeSubroutines = i :: rest) (hi : i < p.subroutines.length) :
    (p.pushSourceMap a b).subroutines.getD i default =
      (p.subroutines.getD i default).pushSourceMap a b := by
  simp only [Program.pushSourceMap, hact]
  exact getD_modifyIdx_self p.subroutines i _ hi

theorem subAt_pushOp (p : Program) (op : OP) (i : Nat) (rest : List Nat)
    (hact : p.activeSubroutines = i :: rest) (hi : i < p.subroutines.length) :
    (p.pushOp op).subroutines.getD i default =
      (p.subroutines.getD i default).pushOp op := by
  simp only [Program.pushOp, hact]
  exact getD_modifyIdx_self p.subroutines i _ hi

theorem subAt_pushOpNode (p : Program) (op : OP) (a b i : Nat)
    (rest : List Nat) (hact : p.activeSubroutines = i :: rest)
    (hi : i < p.subroutines.length) :
    (p.pushOpNode op a b).subroutines.getD i default =
      ((p.subroutines.getD i default).pushSourceMap a b).pushOp op := by
  unfold Program.pushOpNode
  rw [subAt_pushOp _ _ _ rest (by rw [active_pushSourceMap]; exact hact)
      (by rw [subLen_pushSourceMap]; exact hi),
    subAt_pushSourceMap _ _ _ _ rest hact hi]

theorem sourceMap_subPushOp (s : Subroutine) (op : OP) :
    (s.pushOp op).sourceMap = s.sourceMap := by
  unfold Subroutine.pushOp
  by_cases h : s.isIgnoreNextSectionOP <;> simp [h]

/-- The effects of the not-found emission `pushOp(Never, node)` +
`pushError(CannotFind, node)` when a subroutine is active: `Never` goes
to the active emission buffer with a source-map entry carrying the
node's span, while the `Error` opcode and u16 code go to the main ops
buffer with a `(0, pos, end)` main source-map entry. -/
theorem notFound_effects (p : Program) (a b i : Nat) (rest : List Nat)
    (hv : p.activeValid) (hact : p.activeSubroutines = i :: rest) :
    ((p.pushOpNode OP.Never a b).pushError .CannotFind a b).getOPs =
      p.getOPs ++ [OP.Never.code] ∧
    ((p.pushOpNode OP.Never a b).pushError .CannotFind a b).ops =
      p.ops ++ [OP.Error.code] ++ uint16Bytes ErrorCode.CannotFind.code ∧
    ((p.pushOpNode OP.Never a b).pushError .CannotFind a b).sourceMap =
      p.sourceMap ++ [⟨0, a, b⟩] ∧
    (((p.pushOpNode OP.Never a b).pushError .CannotFind a b).subroutines.getD
        i default).sourceMap =
      (p.subroutines.getD i default).sourceMap ++
        [⟨(p.subroutines.getD i default).ops.length, a, b⟩] := by
  have hne : p.activeSubroutines ≠ [] := by rw [hact]; simp
  have hi : i < p.subroutines.length := hv i (hact ▸ List.mem_cons_self i rest)
  have hact' : (p.pushOpNode OP.Never a b).activeSubroutines = i :: rest := by
    rw [active_pushOpNode, hact]
  refine ⟨?_, ?_, ?_, ?_⟩
  · rw [getOPs_pushError _ _ _ _ i rest hact', getOPs_pushOpNode p _ a b hv]
  · rw [pushError_ops, ops_main_pushOpNode p _ a b hne]
  · rw [pushError_sourceMap, sourceMapMain_pushOpNode p _ a b hne]
  · rw [pushError_subs, subAt_pushOpNode p _ a b i rest hact hi,
      sourceMap_subPushOp]
    rfl

/-! ### C4 — identifier not found: Never + Error(CannotFind), no abort -/

/-- C4: for an identifier (bare `Identifier` node or `TypeReference`)
whose name is not in the symbol table, with a subroutine active, the
compiler emits `Never` (with a source-map entry carrying the
identifier's span) into the current bytecode, followed by
`Error(CannotFind)` with the identifier's span recorded on the main
source map (errors are always part of main), and `handle` returns
successfully — compilation does not abort. -/
theorem cannotFind_emits_never_error (p : Program) (text : String)
    (tyArgs tyArgs' : Option (List Node)) (pos e npos nend pos2 e2 i : Nat)
    (rest : List Nat) (hv : p.activeValid)
    (hact : p.activeSubroutines = i :: rest)
    (hfind : p.findSymbol text = none) :
    (∃ q, Compiler.handle (.identifier text tyArgs pos e) p = .ok q ∧
      q.getOPs = p.getOPs ++ [OP.Never.code] ∧
      q.ops = p.ops ++ [OP.Error.code] ++ uint16Bytes ErrorCode.CannotFind.code ∧
      q.sourceMap = p.sourceMap ++ [⟨0, pos, e⟩] ∧
      (q.subroutines.getD i default).sourceMap =
        (p.subroutines.getD i default).sourceMap ++
          [⟨(p.subroutines.getD i default).ops.length, pos, e⟩]) ∧
    (∃ q, Compiler.handle (.typeReference text npos nend tyArgs' pos2 e2) p =
        .ok q ∧
      q.getOPs = p.getOPs ++ [OP.Never.code] ∧
      q.ops = p.ops ++ [OP.Error.code] ++ uint16Bytes ErrorCode.CannotFind.code ∧
      q.sourceMap = p.sourceMap ++ [⟨0, npos, nend⟩] ∧
      (q.subroutines.getD i default).sourceMap =
        (p.subroutines.getD i default).sourceMap ++
          [⟨(p.subroutines.getD i default).ops.length, npos, nend⟩]) := by
  obtain ⟨h1, h2, h3, h4⟩ := notFound_effects p pos e i rest hv hact
  obtain ⟨g1, g2, g3, g4⟩ := notFound_effects p npos nend i rest hv hact
  have hid := handle_identifier_eq text tyArgs pos e p
  have htr := handle_typeReference_eq text npos nend tyArgs' pos2 e2 p
  rw [hfind] at hid htr
  exact ⟨⟨_, hid, h1, h2, h3, h4⟩, ⟨_, htr, g1, g2, g3, g4⟩⟩

/-- A program whose symbol table is empty, with one active subroutine
(the C4 witness state). -/
def c4Prog : Program :=
  { activeSubroutines := [0], subroutines := [mkSubroutine "W"] }

/-- Witness for C4 at a concrete state: the name "nope" is unresolved
and both node kinds emit `Never` + `Error(CannotFind)` without
aborting. -/
theorem cannotFind_emits_never_error_witness :
    (∃ q, Compiler.handle (.identifier "nope" none 1 2) c4Prog = .ok q ∧
      q.getOPs = c4Prog.getOPs ++ [OP.Never.code] ∧
      q.ops = c4Prog.ops ++ [OP.Error.code] ++
        uint16Bytes ErrorCode.CannotFind.code ∧
      q.sourceMap = c4Prog.sourceMap ++ [⟨0, 1, 2⟩] ∧
      (q.subroutines.getD 0 default).sourceMap =
        (c4Prog.subroutines.getD 0 default).sourceMap ++
          [⟨(c4Prog.subroutines.getD 0 default).ops.length, 1, 2⟩]) ∧
    (∃ q, Compiler.handle (.typeReference "nope" 3 4 none 5 6) c4Prog =
        .ok q ∧
      q.getOPs = c4Prog.getOPs ++ [OP.Never.code] ∧
      q.ops = c4Prog.ops ++ [OP.Error.code] ++
        uint16Bytes ErrorCode.CannotFind.code ∧
      q.sourceMap = c4Prog.sourceMap ++ [⟨0, 3, 4⟩] ∧
      (q.subroutines.getD 0 default).sourceMap =
        (c4Prog.subroutines.getD 0 default).sourceMap ++
          [⟨(c4Prog.subroutines.getD 0 default).ops.length, 3, 4⟩]) :=
  cannotFind_emits_never_error c4Prog "nope" none none 1 2 3 4 5 6 0 []
    (by intro j hj; simp [c4Prog] at hj; simp [c4Prog, hj]) rfl (by decide)

/-! ### C5 — TypeArgument references: Loads + address, usage recording -/

/-- The active section's usage list of a subroutine. -/
def Subroutine.activeUsages (s : Subroutine) : List TypeArgumentUsage :=
  (s.sections.getD s.activeSection default).typeArgumentUsages

/-- A frame holding the type-argument symbol "T", with one active
subroutine (the C5 counterexample state). -/
def c5Symbol : Symbol :=
  { name := "T", type := .TypeArgument, index := 0, frame := 0 }

def c5Prog : Program :=
  { frames := [{ id := 0, tag := 0, symbols := [c5Symbol] }],
    nextFrameTag := 1, activeSubroutines := [0],
    subroutines := [mkSubroutine "X"] }

/-- C5 counterexample: a bare `Identifier` node resolving to a
`TypeArgument` symbol emits `Loads` + the symbol address, but — contrary
to the claim — records NO `TypeArgumentUsage`: every section of the
active subroutine still has an empty usage list afterwards (the source's
`Identifier` case omits the `registerTypeArgumentUsage` call that the
`TypeReference` case makes). -/
theorem identifier_usage_not_recorded :
    (match Compiler.handle (.identifier "T" none 1 2) c5Prog with
     | .ok q => (q.subroutines.getD 0 default).sections.map
         (fun sec => sec.typeArgumentUsages)
     | .error _ => [[⟨0, 0⟩]]) = [[]] ∧
    (match Compiler.handle (.identifier "T" none 1 2) c5Prog with
     | .ok q => q.getOPs
     | .error _ => []) =
      [OP.Loads.code] ++ uint16Bytes 0 ++ uint16Bytes 0 := by
  constructor
  · decide
  · decide

theorem registerUsageList_eq_none (k ip : Nat)
    (us : List TypeArgumentUsage) (h : ∀ u ∈ us, u.symbolIndex ≠ k) :
    registerUsageList k ip us = none := by
  induction us with
  | nil => rfl
  | cons u rest ih =>
    unfold registerUsageList
    rw [if_neg (h u (List.mem_cons_self u rest)),
      ih (fun x hx => h x (List.mem_cons_of_mem u hx))]
    rfl

theorem activeUsages_registerTAU (s : Subroutine) (sym : Symbol)
    (hsec : s.activeSection < s.sections.length)
    (hfresh : ∀ u ∈ s.activeUsages, u.symbolIndex ≠ sym.index) :
    (s.registerTypeArgumentUsage sym).activeUsages =
      s.activeUsages ++ [⟨sym.index, s.ip⟩] := by
  unfold Subroutine.registerTypeArgumentUsage Subroutine.activeUsages
  have h1 := getD_modifyIdx_self s.sections s.activeSection
    (fun sec => sec.registerTypeArgumentUsage sym s.ip) hsec
  simp only []
  rw [h1]
  unfold Section.registerTypeArgumentUsage
  simp only []
  rw [registerUsageList_eq_none sym.index s.ip
    (s.sections.getD s.activeSection default).typeArgumentUsages hfresh]

theorem getD_modifyIdx_proj (l : List Section) (j : Nat)
    (f : Section → Section) (g : Section → List TypeArgumentUsage)
    (hf : ∀ sec, g (f sec) = g sec) :
    g ((modifyIdx l j f).getD j default) = g (l.getD j default) := by
  cases hx : l.get? j with
  | none =>
    unfold modifyIdx
    rw [hx]
  | some x =>
    have h2 := get?_modifyIdx_self l j f x hx
    rw [List.get?_eq_getElem?] at h2 hx
    rw [List.getD_eq_getElem?_getD, h2, List.getD_eq_getElem?_getD, hx]
    exact hf x

theorem activeSection_subPushOp (s : Subroutine) (op : OP) :
    (s.pushOp op).activeSection = s.activeSection := by
  unfold Subroutine.pushOp
  by_cases h : s.isIgnoreNextSectionOP <;> simp [h]

theorem activeUsages_subPushOp (s : Subroutine) (op : OP) :
    (s.pushOp op).activeUsages = s.activeUsages := by
  unfold Subroutine.activeUsages
  rw [activeSection_subPushOp]
  show ((s.pushOp op).sections.getD s.activeSection default).typeArgumentUsages
    = _
  unfold Subroutine.pushOp
  by_cases h : s.isIgnoreNextSectionOP
  · simp [h]
  · simp only [h, if_false, Bool.false_eq_true]
    exact getD_modifyIdx_proj s.sections s.activeSection _
      (fun sec => sec.typeArgumentUsages) (fun sec => rfl)

theorem activeUsages_subPushSourceMap (s : Subroutine) (a b : Nat) :
    (s.pushSourceMap a b).activeUsages = s.activeUsages := rfl

theorem sectionsLen_subPushOp (s : Subroutine) (op : OP) :
    (s.pushOp op).sections.length = s.sections.length := by
  unfold Subroutine.pushOp
  by_cases h : s.isIgnoreNextSectionOP <;> simp [h, length_modifyIdx]

theorem ip_subPushOp (s : Subroutine) (op : OP) :
    (s.pushOp op).ip = s.ip + 1 := by
  unfold Subroutine.ip
  rw [ops_subPushOp]
  simp

theorem subAt_modifyOPs (p : Program) (f : List Nat → List Nat) (i : Nat)
    (rest : List Nat) (hact : p.activeSubroutines = i :: rest)
    (hi : i < p.subroutines.length) :
    (p.modifyOPs f).subroutines.getD i default =
      { p.subroutines.getD i default with
        ops := f (p.subroutines.getD i default).ops } := by
  simp only [Program.modifyOPs, hact]
  exact getD_modifyIdx_self p.subroutines i _ hi

theorem subAt_registerTAU (p : Program) (sym : Symbol) (i : Nat)
    (rest : List Nat) (hact : p.activeSubroutines = i :: rest)
    (hi : i < p.subroutines.length) :
    (p.registerTypeArgumentUsage sym).subroutines.getD i default =
      (p.subroutines.getD i default).registerTypeArgumentUsage sym := by
  simp only [Program.registerTypeArgumentUsage, hact]
  exact getD_modifyIdx_self p.subroutines i _ hi

theorem getOPs_pushUint16 (p : Program) (v : Nat) (hv : p.activeValid) :
    (p.pushUint16 v 0).getOPs = p.getOPs ++ uint16Bytes v := by
  unfold Program.pushUint16
  rw [getOPs_modifyOPs _ _ hv]
  simp [writeBytes_append]

theorem active_pushUint16 (p : Program) (v off : Nat) :
    (p.pushUint16 v off).activeSubroutines = p.activeSubroutines :=
  active_modifyOPs ..

theorem subLen_pushUint16 (p : Program) (v off : Nat) :
    (p.pushUint16 v off).subroutines.length = p.subroutines.length :=
  subLen_modifyOPs ..

theorem frames_pushUint16 (p : Program) (v off : Nat) :
    (p.pushUint16 v off).frames = p.frames :=
  frames_modifyOPs ..

theorem getOPs_pushSymbolAddress (p : Program) (sym : Symbol)
    (hv : p.activeValid) :
    (p.pushSymbolAddress sym).getOPs = p.getOPs ++
      uint16Bytes ((p.frames.takeWhile (fun f => f.tag ≠ sym.frame)).length)
      ++ uint16Bytes sym.index := by
  unfold Program.pushSymbolAddress
  have hv1 : (p.pushUint16
      ((p.frames.takeWhile (fun f => f.tag ≠ sym.frame)).length)
      0).activeValid :=
    activeValid_of p _ (active_pushUint16 ..) (subLen_pushUint16 ..) hv
  rw [getOPs_pushUint16 _ _ hv1, getOPs_pushUint16 _ _ hv]

theorem active_pushSymbolAddress (p : Program) (sym : Symbol) :
    (p.pushSymbolAddress sym).activeSubroutines = p.activeSubroutines := by
  unfold Program.pushSymbolAddress
  rw [active_pushUint16, active_pushUint16]

theorem subLen_pushSymbolAddress (p : Program) (sym : Symbol) :
    (p.pushSymbolAddress sym).subroutines.length = p.subroutines.length := by
  unfold Program.pushSymbolAddress
  rw [subLen_pushUint16, subLen_pushUint16]

theorem subAt_pushUint16 (p : Program) (v i : Nat) (rest : List Nat)
    (hact : p.activeSubroutines = i :: rest)
    (hi : i < p.subroutines.length) :
    (p.pushUint16 v 0).subroutines.getD i default =
      { p.subroutines.getD i default with
        ops := (p.subroutines.getD i default).ops ++ uint16Bytes v } := by
  unfold Program.pushUint16
  rw [subAt_modifyOPs p _ i rest hact hi]
  simp [writeBytes_append]

theorem getOPs_eq_subAt (p : Program) (i : Nat) (rest : List Nat)
    (hact : p.activeSubroutines = i :: rest) :
    p.getOPs = (p.subroutines.getD i default).ops := by
  unfold Program.getOPs
  rw [hact]

theorem getOPs_registerTAU (p : Program) (sym : Symbol) :
    (p.registerTypeArgumentUsage sym).getOPs = p.getOPs := by
  rw [registerTypeArgumentUsage_eq]
  exact getOPs_subPattern p _ (fun s => ops_subRegisterUsage s sym)

/-- The composite subroutine-level view of `Loads` + symbol-address
emission inside the top active subroutine. -/
theorem subAt_loads (p : Program) (sym : Symbol) (a b i : Nat)
    (rest : List Nat) (hact : p.activeSubroutines = i :: rest)
    (hi : i < p.subroutines.length) :
    ∃ fo : Nat,
      ((p.pushOpNode OP.Loads a b).pushSymbolAddress sym).subroutines.getD
          i default =
        { ((p.subroutines.getD i default).pushSourceMap a b).pushOp OP.Loads
          with
          ops := (((p.subroutines.getD i default).pushSourceMap a b).pushOp
            OP.Loads).ops ++ uint16Bytes fo ++ uint16Bytes sym.index } := by
  set y := p.pushOpNode OP.Loads a b with hy
  have hacty : y.activeSubroutines = i :: rest := by
    rw [hy, active_pushOpNode, hact]
  have hiy : i < y.subroutines.length := by
    rw [hy, subLen_pushOpNode]; exact hi
  refine ⟨(y.frames.takeWhile (fun f => f.tag ≠ sym.frame)).length, ?_⟩
  unfold Program.pushSymbolAddress
  set fo := (y.frames.takeWhile (fun f => f.tag ≠ sym.frame)).length with hfo
  have hact1 : (y.pushUint16 fo 0).activeSubroutines = i :: rest := by
    rw [active_pushUint16, hacty]
  have hi1 : i < (y.pushUint16 fo 0).subroutines.length := by
    rw [subLen_pushUint16]; exact hiy
  rw [subAt_pushUint16 _ _ _ rest hact1 hi1,
    subAt_pushUint16 _ _ _ rest hacty hiy,
    subAt_pushOpNode _ _ _ _ _ rest hact hi]

theorem activeSection_subPushSourceMap (s : Subroutine) (a b : Nat) :
    (s.pushSourceMap a b).activeSection = s.activeSection := rfl

theorem sectionsLen_subPushSourceMap (s : Subroutine) (a b : Nat) :
    (s.pushSourceMap a b).sections.length = s.sections.length := rfl

/-- C5 amended: a reference to a `TypeArgument` symbol emits `Loads`
followed by the symbol address (u16 frame offset, u16 symbol index) in
both the `TypeReference` and the bare `Identifier` case — but only the
`TypeReference` case additionally records a `TypeArgumentUsage` in the
current subroutine's active section (here for a symbol with no earlier
usage entry in that section; a repeated registration instead updates
the existing entry, see C9); the bare `Identifier` case records
nothing. -/
theorem typeArgument_reference_usage (p : Program) (name : String)
    (tyArgs tyArgs' : Option (List Node)) (npos nend pos2 e2 pos e i : Nat)
    (rest : List Nat) (sym : Symbol) (hv : p.activeValid)
    (hact : p.activeSubroutines = i :: rest)
    (hfind : p.findSymbol name = some sym) (hty : sym.type = .TypeArgument)
    (hsec : (p.subroutines.getD i default).activeSection <
      (p.subroutines.getD i default).sections.length)
    (hfresh : ∀ u ∈ (p.subroutines.getD i default).activeUsages,
      u.symbolIndex ≠ sym.index) :
    (∃ q, Compiler.handle (.typeReference name npos nend tyArgs pos2 e2) p =
        .ok q ∧
      q.getOPs = p.getOPs ++ [OP.Loads.code] ++
        uint16Bytes ((p.frames.takeWhile (fun f => f.tag ≠ sym.frame)).length)
        ++ uint16Bytes sym.index ∧
      (q.subroutines.getD i default).activeUsages =
        (p.subroutines.getD i default).activeUsages ++
          [⟨sym.index, p.getOPs.length + 5⟩]) ∧
    (∃ q, Compiler.handle (.identifier name tyArgs' pos e) p = .ok q ∧
      q.getOPs = p.getOPs ++ [OP.Loads.code] ++
        uint16Bytes ((p.frames.takeWhile (fun f => f.tag ≠ sym.frame)).length)
        ++ uint16Bytes sym.index ∧
      (q.subroutines.getD i default).activeUsages =
        (p.subroutines.getD i default).activeUsages) := by
  have hi : i < p.subroutines.length := hv i (hact ▸ List.mem_cons_self i rest)
  -- shared facts about the Loads + address emission
  have hvN : ∀ a b : Nat, (p.pushOpNode OP.Loads a b).activeValid := fun a b =>
    activeValid_of p _ (active_pushOpNode ..) (subLen_pushOpNode ..) hv
  have hgetOPs : ∀ a b : Nat,
      ((p.pushOpNode OP.Loads a b).pushSymbolAddress sym).getOPs =
        p.getOPs ++ [OP.Loads.code] ++
          uint16Bytes
            ((p.frames.takeWhile (fun f => f.tag ≠ sym.frame)).length) ++
          uint16Bytes sym.index := by
    intro a b
    rw [getOPs_pushSymbolAddress _ _ (hvN a b), frames_pushOpNode,
      getOPs_pushOpNode p _ a b hv]
  -- the subroutine-level state after Loads + address
  have hsubAt : ∀ a b : Nat, ∃ fo : Nat,
      ((p.pushOpNode OP.Loads a b).pushSymbolAddress sym).subroutines.getD
          i default =
        { ((p.subroutines.getD i default).pushSourceMap a b).pushOp OP.Loads
          with
          ops := (((p.subroutines.getD i default).pushSourceMap a b).pushOp
            OP.Loads).ops ++ uint16Bytes fo ++ uint16Bytes sym.index } :=
    fun a b => subAt_loads p sym a b i rest hact hi
  -- usages preserved through Loads + address
  have husages : ∀ a b : Nat,
      (((p.pushOpNode OP.Loads a b).pushSymbolAddress sym).subroutines.getD
        i default).activeUsages =
        (p.subroutines.getD i default).activeUsages := by
    intro a b
    obtain ⟨fo, hfo⟩ := hsubAt a b
    rw [hfo]
    show (((p.subroutines.getD i default).pushSourceMap a b).pushOp
      OP.Loads).activeUsages = _
    rw [activeUsages_subPushOp, activeUsages_subPushSourceMap]
  constructor
  · -- TypeReference: Loads + address + usage recorded
    have htr := handle_typeReference_eq name npos nend tyArgs pos2 e2 p
    rw [hfind] at htr
    have hred : ∀ (args : Except String Program) (cnt : Nat),
        Compiler.handleTypeReferenceResolved (some sym) args cnt npos nend p =
          .ok (((p.pushOpNode OP.Loads npos nend).pushSymbolAddress
            sym).registerTypeArgumentUsage sym) := by
      intro args cnt
      simp [Compiler.handleTypeReferenceResolved, hty]
    refine ⟨_, htr.trans (hred _ _), ?_, ?_⟩
    · rw [getOPs_registerTAU]
      exact hgetOPs npos nend
    · set x := (p.pushOpNode OP.Loads npos nend).pushSymbolAddress sym
        with hx
      have hactx : x.activeSubroutines = i :: rest := by
        rw [hx, active_pushSymbolAddress, active_pushOpNode, hact]
      have hix : i < x.subroutines.length := by
        rw [hx, subLen_pushSymbolAddress, subLen_pushOpNode]; exact hi
      rw [subAt_registerTAU x sym i rest hactx hix]
      obtain ⟨fo, hfo⟩ := hsubAt npos nend
      rw [hx.symm] at hfo  -- no-op; keep x form
      rw [hfo]
      set s0 := p.subroutines.getD i default with hs0
      set xsub : Subroutine :=
        { (s0.pushSourceMap npos nend).pushOp OP.Loads with
          ops := ((s0.pushSourceMap npos nend).pushOp OP.Loads).ops ++
            uint16Bytes fo ++ uint16Bytes sym.index } with hxsub
      have hsec' : xsub.activeSection < xsub.sections.length := by
        show ((s0.pushSourceMap npos nend).pushOp OP.Loads).activeSection <
          ((s0.pushSourceMap npos nend).pushOp OP.Loads).sections.length
        rw [activeSection_subPushOp, sectionsLen_subPushOp,
          activeSection_subPushSourceMap, sectionsLen_subPushSourceMap]
        exact hsec
      have husage' : ∀ u ∈ xsub.activeUsages, u.symbolIndex ≠ sym.index := by
        have : xsub.activeUsages = s0.activeUsages := by
          show ((s0.pushSourceMap npos nend).pushOp OP.Loads).activeUsages = _
          rw [activeUsages_subPushOp, activeUsages_subPushSourceMap]
        rw [this]
        exact hfresh
      rw [activeUsages_registerTAU xsub sym hsec' husage']
      have hip : xsub.ip = s0.ip + 5 := by
        show (((s0.pushSourceMap npos nend).pushOp OP.Loads).ops ++
          uint16Bytes fo ++ uint16Bytes sym.index).length = s0.ip + 5
        rw [ops_subPushOp]
        simp [Subroutine.ip, Subroutine.pushSourceMap, uint16Bytes]
      have husg : xsub.activeUsages = s0.activeUsages := by
        show ((s0.pushSourceMap npos nend).pushOp OP.Loads).activeUsages = _
        rw [activeUsages_subPushOp, activeUsages_subPushSourceMap]
      rw [hip, husg, getOPs_eq_subAt p i rest hact]
      rfl
  · -- bare Identifier: Loads + address, no usage recorded
    have hid := handle_identifier_eq name tyArgs' pos e p
    rw [hfind] at hid
    have hred : ∀ (args : Except String Program) (cnt : Nat),
        Compiler.handleIdentifierResolved (some sym) args cnt pos e p =
          .ok ((p.pushOpNode OP.Loads pos e).pushSymbolAddress sym) := by
      intro args cnt
      simp [Compiler.handleIdentifierResolved, hty]
    exact ⟨_, hid.trans (hred _ _), hgetOPs pos e, husages pos e⟩

/-- Witness for C5's amended theorem at the concrete state `c5Prog`. -/
theorem typeArgument_reference_usage_witness :
    c5Prog.findSymbol "T" = some c5Symbol ∧
    ((∃ q, Compiler.handle (.typeReference "T" 3 4 none 5 6) c5Prog =
        .ok q ∧
      q.getOPs = c5Prog.getOPs ++ [OP.Loads.code] ++
        uint16Bytes ((c5Prog.frames.takeWhile
          (fun f => f.tag ≠ c5Symbol.frame)).length) ++
        uint16Bytes c5Symbol.index ∧
      (q.subroutines.getD 0 default).activeUsages =
        (c5Prog.subroutines.getD 0 default).activeUsages ++
          [⟨c5Symbol.index, c5Prog.getOPs.length + 5⟩]) ∧
    (∃ q, Compiler.handle (.identifier "T" none 7 8) c5Prog = .ok q ∧
      q.getOPs = c5Prog.getOPs ++ [OP.Loads.code] ++
        uint16Bytes ((c5Prog.frames.takeWhile
          (fun f => f.tag ≠ c5Symbol.frame)).length) ++
        uint16Bytes c5Symbol.index ∧
      (q.subroutines.getD 0 default).activeUsages =
        (c5Prog.subroutines.getD 0 default).activeUsages)) :=
  ⟨rfl, typeArgument_reference_usage c5Prog "T" none none 3 4 5 6 7 8 0 []
    c5Symbol (by intro j hj; simp [c5Prog] at hj; simp [c5Prog, hj]) rfl rfl
    rfl (by decide) (by decide)⟩

/-! ### C6 — image layout of `build()` -/

theorem foldl_append_exists {α : Type} (f : List Nat → α → List Nat)
    (hf : ∀ b x, ∃ t, f b x = b ++ t) :
    ∀ (l : List α) (b : List Nat), ∃ t, l.foldl f b = b ++ t := by
  intro l
  induction l with
  | nil => intro b; exact ⟨[], by simp⟩
  | cons x xs ih =>
    intro b
    obtain ⟨t1, ht1⟩ := hf b x
    obtain ⟨t2, ht2⟩ := ih (f b x)
    exact ⟨t1 ++ t2, by rw [List.foldl_cons, ht2, ht1, List.append_assoc]⟩

theorem foldl_pair_append_exists {α : Type}
    (step : (List Nat × Nat) → α → (List Nat × Nat))
    (hstep : ∀ acc x, ∃ t, (step acc x).1 = acc.1 ++ t) :
    ∀ (l : List α) (acc : List Nat × Nat),
      ∃ t, (l.foldl step acc).1 = acc.1 ++ t := by
  intro l
  induction l with
  | nil => intro acc; exact ⟨[], by simp⟩
  | cons x xs ih =>
    intro acc
    obtain ⟨t1, ht1⟩ := hstep acc x
    obtain ⟨t2, ht2⟩ := ih (step acc x)
    exact ⟨t1 ++ t2, by rw [List.foldl_cons, ht2, ht1, List.append_assoc]⟩

theorem storageFold_blob (hash : String → Nat) :
    ∀ (st : List String) (b : List Nat),
      ∃ blob,
        st.foldl (fun acc item => acc ++ uint64Bytes (hash item) ++
          uint16Bytes (strBytes item).length ++ strBytes item) b = b ++ blob ∧
        b.length + blob.length =
          st.foldl (fun a item => a + 8 + 2 + (strBytes item).length)
            b.length := by
  intro st
  induction st with
  | nil => intro b; exact ⟨[], by simp⟩
  | cons s st ih =>
    intro b
    obtain ⟨blob', hb', hl'⟩ := ih (b ++ uint64Bytes (hash s) ++
      uint16Bytes (strBytes s).length ++ strBytes s)
    refine ⟨uint64Bytes (hash s) ++ uint16Bytes (strBytes s).length ++
      strBytes s ++ blob', ?_, ?_⟩
    · simp only [List.foldl_cons, hb']
      simp
    · simp only [List.foldl_cons]
      have : (b ++ uint64Bytes (hash s) ++ uint16Bytes (strBytes s).length ++
          strBytes s).length = b.length + 8 + 2 + (strBytes s).length := by
        simp [length_uint64Bytes, length_uint16Bytes]
        omega
      rw [this] at hl'
      simp only [List.length_append] at hl' ⊢
      simp [length_uint64Bytes, length_uint16Bytes] at hl' ⊢
      omega

theorem buildTail_last (p : Program) (hash : String → Nat)
    (b : List Nat) (address : Nat) :
    ∃ t, p.buildTail hash b address = t ++ [OP.Halt.code] :=
  ⟨_, rfl⟩

theorem buildTail_prefix (p : Program) (hash : String → Nat)
    (b : List Nat) (address : Nat) :
    ∃ t, p.buildTail hash b address = b ++ OP.SourceMap.code :: t := by
  choose F1 hF1 using foldl_pair_append_exists
    (fun (acc : List Nat × Nat) (r : Subroutine) =>
      ((r.sourceMap.foldl
        (fun b m =>
          b ++ uint32Bytes (acc.2 + m.bytecodePos) ++
            uint32Bytes m.sourcePos ++ uint32Bytes m.sourceEnd)
        acc.1), acc.2 + r.ops.length))
    (fun acc r => foldl_append_exists _
      (fun (b : List Nat) (m : SourceMapEntry) =>
        ⟨uint32Bytes (acc.2 + m.bytecodePos) ++
          uint32Bytes m.sourcePos ++ uint32Bytes m.sourceEnd, by simp⟩)
      r.sourceMap acc.1)
  choose F2 hF2 using
    (fun (k : Nat) => foldl_append_exists
      (fun (b : List Nat) (m : SourceMapEntry) =>
        b ++ uint32Bytes (k + m.bytecodePos) ++
          uint32Bytes m.sourcePos ++ uint32Bytes m.sourceEnd)
      (fun b m =>
        ⟨uint32Bytes (k + m.bytecodePos) ++
          uint32Bytes m.sourcePos ++ uint32Bytes m.sourceEnd, by simp⟩))
  choose F3 hF3 using foldl_pair_append_exists
    (fun (acc2 : List Nat × Nat) (r : Subroutine) =>
      (acc2.1 ++ [OP.Subroutine.code] ++ uint32Bytes r.nameAddress ++
        uint32Bytes acc2.2 ++ [r.getFlags], acc2.2 + r.ops.length))
    (fun acc2 r => ⟨[OP.Subroutine.code] ++ uint32Bytes r.nameAddress ++
      uint32Bytes acc2.2 ++ [r.getFlags], by simp⟩)
  choose F4 hF4 using foldl_append_exists (fun b (r : Subroutine) => b ++ r.ops)
    (fun b r => ⟨r.ops, rfl⟩)
  simp only [Program.buildTail]
  rw [writeBytes_append, hF2, hF1, hF3, hF4]
  simp only [List.append_assoc, List.singleton_append, List.cons_append,
    List.nil_append]
  exact ⟨_, rfl⟩

theorem build_last (p : Program) (hash : String → Nat) :
    ∃ t, p.build hash = t ++ [OP.Halt.code] :=
  ⟨_, rfl⟩

theorem getLast_append_singleton (x : Nat) :
    ∀ (l : List Nat), (l ++ [x]).getLast? = some x := by
  intro l
  induction l with
  | nil => rfl
  | cons a l ih =>
    rw [List.cons_append, List.getLast?_cons, ih]
    cases l <;> rfl

theorem build_decomp (p : Program) (hash : String → Nat) :
    ∃ blob tail,
      p.build hash =
        [OP.Jump.code] ++ (uint32Bytes p.storageEnd ++ (blob ++
          (OP.SourceMap.code :: tail))) ∧
      5 + blob.length = p.storageEnd := by
  have hw : writeBytes ([OP.Jump.code] ++ uint32Bytes 0) 1
      (uint32Bytes p.storageEnd) =
      [OP.Jump.code] ++ uint32Bytes p.storageEnd := by
    have h := writeBytes_region [OP.Jump.code] (uint32Bytes 0)
      (uint32Bytes p.storageEnd) [] rfl (by decide)
    simpa using h
  obtain ⟨blob, hb, hl⟩ := storageFold_blob hash p.storage
    ([OP.Jump.code] ++ uint32Bytes p.storageEnd)
  obtain ⟨tail, ht⟩ := buildTail_prefix p hash
    (([OP.Jump.code] ++ uint32Bytes p.storageEnd) ++ blob) p.storageEnd
  refine ⟨blob, tail, ?_, ?_⟩
  · simp only [Program.build]
    rw [writeBytes_append, hw, hb, ht]
    simp
  · have hlen5 : ([OP.Jump.code] ++ uint32Bytes p.storageEnd).length = 5 := by
      simp [length_uint32Bytes]
    rw [hlen5] at hl
    exact hl.trans rfl

/-- **C6.**  The image produced by `build()` begins with a `Jump`
opcode plus a u32 target equal to the offset of the first byte after
the storage block (`storageEnd`), the byte at that offset is the
`SourceMap` opcode, and the last byte of the image is `Halt`. -/
theorem build_image_layout (p : Program) (hash : String → Nat)
    (h : p.storageEnd < 4294967296) :
    (p.build hash).getD 0 0 = OP.Jump.code ∧
    readUint32 (p.build hash) 1 = p.storageEnd ∧
    (p.build hash).getD p.storageEnd 0 = OP.SourceMap.code ∧
    (p.build hash).getLast? = some OP.Halt.code := by
  obtain ⟨blob, tail, hbin, hlen⟩ := build_decomp p hash
  refine ⟨?_, ?_, ?_, ?_⟩
  · rw [hbin]; rfl
  · rw [hbin]
    have hr := readUint32_at [OP.Jump.code]
      (blob ++ OP.SourceMap.code :: tail) p.storageEnd h
    simpa using hr
  · rw [hbin]
    have hshape : [OP.Jump.code] ++ (uint32Bytes p.storageEnd ++
        (blob ++ OP.SourceMap.code :: tail)) =
        ([OP.Jump.code] ++ uint32Bytes p.storageEnd ++ blob) ++
          OP.SourceMap.code :: tail := by simp
    have hAl : ([OP.Jump.code] ++ uint32Bytes p.storageEnd ++ blob).length =
        p.storageEnd := by
      simp only [List.length_append, length_uint32Bytes, List.length_cons,
        List.length_nil]
      omega
    rw [hshape, ← hAl]
    exact getD_append_boundary ..
  · obtain ⟨t, htl⟩ := build_last p hash
    rw [htl]
    exact getLast_append_singleton ..

/-- Witness for `build_image_layout`: the empty program (storage end
`5`, below `2^32`). -/
theorem build_image_layout_witness :
    ({} : Program).storageEnd < 4294967296 ∧
    ((({} : Program).build (fun _ => 0)).getD 0 0 = OP.Jump.code ∧
     readUint32 (({} : Program).build (fun _ => 0)) 1 =
       ({} : Program).storageEnd ∧
     (({} : Program).build (fun _ => 0)).getD ({} : Program).storageEnd 0 =
       OP.SourceMap.code ∧
     (({} : Program).build (fun _ => 0)).getLast? = some OP.Halt.code) :=
  ⟨by decide, build_image_layout {} (fun _ => 0) (by decide)⟩

theorem getD_set_self_nat (l : List Nat) (i v : Nat) (h : i < l.length) :
    (l.set i v).getD i 0 = v := by
  have h2 := get?_set_self l i v h
  rw [List.get?_eq_getElem?] at h2
  simp [List.getD_eq_getElem?_getD, h2]

theorem getD_set_ne_nat (l : List Nat) (i j v : Nat) (h : i ≠ j) :
    (l.set i v).getD j 0 = l.getD j 0 := by
  have h2 := get?_set_ne l i j v h
  rw [List.get?_eq_getElem?, List.get?_eq_getElem?] at h2
  simp [List.getD_eq_getElem?_getD, h2]

theorem getD_set_any (l : List Nat) (i j v : Nat) :
    (l.set i v).getD j 0 = v ∨ (l.set i v).getD j 0 = l.getD j 0 := by
  by_cases hij : i = j
  · subst hij
    by_cases hlen : i < l.length
    · exact .inl (getD_set_self_nat l i v hlen)
    · right
      rw [List.set_eq_of_length_le (by omega)]
  · exact .inr (getD_set_ne_nat l i j v hij)

theorem restRewrite_preserve (i v : Nat) (hv : v ≠ OP.Rest.code)
    (acc : List Nat) (u : TypeArgumentUsage) (h : acc.getD i 0 = v) :
    (restRewrite acc u).getD i 0 = v := by
  unfold restRewrite
  split
  · case isTrue hg =>
    by_cases hip : u.ip = i
    · subst hip
      rw [h] at hg
      exact absurd hg hv
    · rw [getD_set_ne_nat _ _ _ _ hip]
      exact h
  · exact h

theorem restFold_preserve (i v : Nat) (hv : v ≠ OP.Rest.code) :
    ∀ (us : List TypeArgumentUsage) (acc : List Nat), acc.getD i 0 = v →
      (us.foldl restRewrite acc).getD i 0 = v := by
  intro us
  induction us with
  | nil => intro acc h; exact h
  | cons u us ih =>
    intro acc h
    exact ih _ (restRewrite_preserve i v hv acc u h)

theorem restRewrite_change (acc : List Nat) (u : TypeArgumentUsage)
    (i : Nat) :
    (restRewrite acc u).getD i 0 = acc.getD i 0 ∨
      (restRewrite acc u).getD i 0 = OP.RestReuse.code := by
  unfold restRewrite
  split
  · rcases getD_set_any acc u.ip i OP.RestReuse.code with h | h
    · exact .inr h
    · exact .inl h
  · exact .inl rfl

theorem restFold_change :
    ∀ (us : List TypeArgumentUsage) (acc : List Nat) (i : Nat),
      (us.foldl restRewrite acc).getD i 0 = acc.getD i 0 ∨
        (us.foldl restRewrite acc).getD i 0 = OP.RestReuse.code := by
  intro us
  induction us with
  | nil => intro acc i; exact .inl rfl
  | cons u us ih =>
    intro acc i
    rcases ih (restRewrite acc u) i with h | h
    · rcases restRewrite_change acc u i with h2 | h2
      · exact .inl (by rw [List.foldl_cons, h, h2])
      · exact .inr (by rw [List.foldl_cons, h, h2])
    · exact .inr (by rw [List.foldl_cons, h])

theorem optimiseStep_preserve (S : List Section) (ops : List Nat)
    (sec : Section) (i : Nat) (h : ops.getD i 0 = OP.TailCall.code) :
    (optimiseStep S ops sec).getD i 0 = OP.TailCall.code := by
  unfold optimiseStep
  split
  · apply restFold_preserve i OP.TailCall.code (by decide)
    split
    · rcases getD_set_any ops (sec.end_ - 1 - 4 - 2) i OP.TailCall.code
        with h1 | h1
      · exact h1
      · rw [h1]; exact h
    · exact h
  · exact h

theorem optimiseFold_preserve (S : List Section) :
    ∀ (secs : List Section) (ops : List Nat) (i : Nat),
      ops.getD i 0 = OP.TailCall.code →
      (secs.foldl (optimiseStep S) ops).getD i 0 = OP.TailCall.code := by
  intro secs
  induction secs with
  | nil => intro ops i h; exact h
  | cons sec secs ih =>
    intro ops i h
    exact ih _ i (optimiseStep_preserve S ops sec i h)

theorem restFold_length :
    ∀ (us : List TypeArgumentUsage) (acc : List Nat),
      (us.foldl restRewrite acc).length = acc.length := by
  intro us
  induction us with
  | nil => intro acc; rfl
  | cons u us ih =>
    intro acc
    rw [List.foldl_cons, ih]
    unfold restRewrite
    split <;> simp

theorem optimiseStep_length (S : List Section) (ops : List Nat)
    (sec : Section) : (optimiseStep S ops sec).length = ops.length := by
  unfold optimiseStep
  split
  · rw [restFold_length]
    split <;> simp
  · rfl

theorem optimiseFold_length (S : List Section) :
    ∀ (secs : List Section) (ops : List Nat),
      (secs.foldl (optimiseStep S) ops).length = ops.length := by
  intro secs
  induction secs with
  | nil => intro ops; rfl
  | cons sec secs ih =>
    intro ops
    rw [List.foldl_cons, ih, optimiseStep_length]

theorem optimiseStep_hits (S : List Section) (ops : List Nat) (sec : Section)
    (htail : isTailSection S sec = true) (hcall : sec.lastOp = OP.Call)
    (hlt : sec.end_ - 1 - 4 - 2 < ops.length) :
    (optimiseStep S ops sec).getD (sec.end_ - 1 - 4 - 2) 0 =
      OP.TailCall.code := by
  unfold optimiseStep
  rw [if_pos htail, if_pos hcall]
  exact restFold_preserve _ _ (by decide) _ _
    (getD_set_self_nat ops _ _ hlt)

theorem optimiseStep_change (S : List Section) (ops : List Nat)
    (sec : Section) (i : Nat) :
    (optimiseStep S ops sec).getD i 0 = ops.getD i 0 ∨
      (isTailSection S sec = true ∧
        ((sec.lastOp = OP.Call ∧ i = sec.end_ - 1 - 4 - 2) ∨
          (optimiseStep S ops sec).getD i 0 = OP.RestReuse.code)) := by
  unfold optimiseStep
  split
  · case isTrue htail =>
    rcases restFold_change sec.typeArgumentUsages
      (if sec.lastOp = OP.Call then
        ops.set (sec.end_ - 1 - 4 - 2) OP.TailCall.code else ops) i
      with hc | hc
    · rw [hc]
      by_cases hcall : sec.lastOp = OP.Call
      · rw [if_pos hcall]
        by_cases hip : sec.end_ - 1 - 4 - 2 = i
        · exact .inr ⟨htail, .inl ⟨hcall, hip.symm⟩⟩
        · exact .inl (getD_set_ne_nat _ _ _ _ hip)
      · rw [if_neg hcall]
        exact .inl rfl
    · exact .inr ⟨htail, .inr hc⟩
  · exact .inl rfl

theorem optimiseFold_change (S : List Section) :
    ∀ (secs : List Section) (ops : List Nat) (i : Nat),
      (secs.foldl (optimiseStep S) ops).getD i 0 ≠ ops.getD i 0 →
      (secs.foldl (optimiseStep S) ops).getD i 0 = OP.RestReuse.code ∨
        ∃ sec, sec ∈ secs ∧ isTailSection S sec = true ∧
          sec.lastOp = OP.Call ∧ i = sec.end_ - 1 - 4 - 2 := by
  intro secs
  induction secs with
  | nil => intro ops i h; exact absurd rfl h
  | cons sec secs ih =>
    intro ops i h
    rw [List.foldl_cons] at h
    by_cases hmid : (secs.foldl (optimiseStep S) (optimiseStep S ops sec)).getD
        i 0 = (optimiseStep S ops sec).getD i 0
    · have hstep : (optimiseStep S ops sec).getD i 0 ≠ ops.getD i 0 := by
        rw [← hmid]; exact h
      rcases optimiseStep_change S ops sec i with he | ⟨htail, hin⟩
      · exact absurd he hstep
      · rcases hin with ⟨hcall, hip⟩ | hrr
        · exact .inr ⟨sec, List.mem_cons_self .., htail, hcall, hip⟩
        · left
          rw [List.foldl_cons, hmid]
          exact hrr
    · rcases ih (optimiseStep S ops sec) i hmid with h1 | ⟨s', hmem, ht, hc, hi⟩
      · left
        rw [List.foldl_cons]
        exact h1
      · exact .inr ⟨s', List.mem_cons_of_mem _ hmem, ht, hc, hi⟩

/-- **C2.**  After `optimise()`, (i) every section meeting the tail
criteria whose `lastOp` is `Call` has the byte at
`end - 1 - 4 - 2` (its `Call` opcode position, when in range) set to
`TailCall`, and (ii) a byte that became `TailCall` (it was not
`TailCall` before the pass) is the `Call` position `end - 1 - 4 - 2` of
some section meeting the tail criteria with `lastOp = Call` — no
non-tail section gets its `Call` rewritten. -/
theorem optimise_tailcall_rewrite (s : Subroutine) :
    (∀ sec ∈ s.sections, isTailSection s.sections sec = true →
        sec.lastOp = OP.Call → sec.end_ - 1 - 4 - 2 < s.ops.length →
        s.optimise.ops.getD (sec.end_ - 1 - 4 - 2) 0 = OP.TailCall.code) ∧
    (∀ i, s.optimise.ops.getD i 0 = OP.TailCall.code →
        s.ops.getD i 0 ≠ OP.TailCall.code →
        ∃ sec, sec ∈ s.sections ∧ isTailSection s.sections sec = true ∧
          sec.lastOp = OP.Call ∧ i = sec.end_ - 1 - 4 - 2) := by
  constructor
  · intro sec hmem htail hcall hlt
    obtain ⟨l1, l2, hsplit⟩ := List.append_of_mem hmem
    show (s.sections.foldl (optimiseStep s.sections) s.ops).getD
      (sec.end_ - 1 - 4 - 2) 0 = OP.TailCall.code
    rw [hsplit] at htail ⊢
    rw [List.foldl_append, List.foldl_cons]
    apply optimiseFold_preserve
    apply optimiseStep_hits _ _ _ htail hcall
    rw [optimiseFold_length]
    exact hlt
  · intro i hfin horig
    have hne : s.optimise.ops.getD i 0 ≠ s.ops.getD i 0 := by
      rw [hfin]
      exact fun h => horig h.symm
    have hch := optimiseFold_change s.sections s.sections s.ops i hne
    rcases hch with hrr | hex
    · rw [show s.optimise.ops =
        s.sections.foldl (optimiseStep s.sections) s.ops from rfl] at hfin
      rw [hfin] at hrr
      exact absurd hrr (by decide)
    · exact hex

/-- A one-section subroutine whose only section is a tail section
ending in `Call` (ops: `Call` opcode + 4 + 2 parameter bytes). -/
def c2Sec : Section :=
  { end_ := 7, lastOp := OP.Call }

def c2Sub : Subroutine :=
  { ops := [OP.Call.code, 0, 0, 0, 0, 0, 0], sections := [c2Sec] }

/-- Witness for `optimise_tailcall_rewrite`: on `c2Sub`, part (i)
rewrites the byte at position 0 to `TailCall`. -/
theorem optimise_tailcall_rewrite_witness :
    (c2Sec ∈ c2Sub.sections ∧ isTailSection c2Sub.sections c2Sec = true ∧
      c2Sec.lastOp = OP.Call ∧ c2Sec.end_ - 1 - 4 - 2 < c2Sub.ops.length) ∧
    c2Sub.optimise.ops.getD (c2Sec.end_ - 1 - 4 - 2) 0 = OP.TailCall.code :=
  ⟨⟨by decide, by decide, by decide, by decide⟩,
    (optimise_tailcall_rewrite c2Sub).1 c2Sec (by decide) (by decide)
      (by decide) (by decide)⟩

theorem activeValid_pushOp (p : Program) (op : OP) (hv : p.activeValid) :
    (p.pushOp op).activeValid :=
  activeValid_of p _ (active_pushOp p op) (subLen_pushOp p op) hv

theorem activeValid_modifyOPs (p : Program) (f : List Nat → List Nat)
    (hv : p.activeValid) : (p.modifyOPs f).activeValid :=
  activeValid_of p _ (active_modifyOPs p f) (subLen_modifyOPs p f) hv

theorem activeValid_subPattern (p : Program) (f : Subroutine → Subroutine)
    (hv : p.activeValid) : (subPattern p f).activeValid :=
  activeValid_of p _ (active_subPattern p f) (subLen_subPattern p f) hv

theorem activeValid_pushFrame (p : Program) (b : Bool) (hv : p.activeValid) :
    (p.pushFrame b).activeValid :=
  activeValid_of p _ (active_pushFrame p b) (subLen_pushFrame p b) hv

theorem activeValid_setCurrentConditional (p : Program) (hv : p.activeValid) :
    (p.setCurrentConditional).activeValid :=
  activeValid_of p _ (active_setCurrentConditional p)
    (by rw [subs_setCurrentConditional]) hv

theorem activeValid_popFrameImplicit (p : Program) (hv : p.activeValid) :
    (p.popFrameImplicit).activeValid :=
  activeValid_of p _ (active_popFrameImplicit p)
    (by rw [subs_popFrameImplicit]) hv

theorem activeValid_pushOpNode (p : Program) (op : OP) (a b : Nat)
    (hv : p.activeValid) : (p.pushOpNode op a b).activeValid :=
  activeValid_of p _ (active_pushOpNode p op a b)
    (subLen_pushOpNode p op a b) hv

theorem snd_pushSymbol (p : Program) (name : String) (type : SymbolType)
    (a b : Nat) :
    (p.pushSymbol name type a b).2 = (p.pushSymbolIdx name type a b).2 := rfl

theorem activeValid_pushSymbolSnd (p : Program) (name : String)
    (type : SymbolType) (a b : Nat) (hv : p.activeValid) :
    ((p.pushSymbol name type a b).2).activeValid :=
  activeValid_of p _
    (by rw [snd_pushSymbol, snd_pushSymbolIdx_active])
    (by rw [snd_pushSymbol, snd_pushSymbolIdx_subs]) hv

theorem getOPs_pushSymbolSnd (p : Program) (name : String)
    (type : SymbolType) (a b : Nat) :
    ((p.pushSymbol name type a b).2).getOPs = p.getOPs := by
  rw [snd_pushSymbol, snd_pushSymbolIdx_getOPs]

theorem activeValid_pushAddress (p : Program) (a off : Nat)
    (hv : p.activeValid) : (p.pushAddress a off).activeValid :=
  activeValid_modifyOPs p _ hv

theorem activeValid_pushInt32Address (p : Program) (a : Int) (off : Nat)
    (hv : p.activeValid) : (p.pushInt32Address a off).activeValid :=
  activeValid_modifyOPs p _ hv

theorem getOPs_pushAddress_append (p : Program) (a : Nat)
    (hv : p.activeValid) :
    (p.pushAddress a 0).getOPs = p.getOPs ++ uint32Bytes a := by
  unfold Program.pushAddress
  rw [getOPs_modifyOPs _ _ hv]
  simp [writeBytes_append]

theorem getOPs_pushAddress_patch (p : Program) (a off : Nat)
    (hv : p.activeValid) (hoff : off ≠ 0) :
    (p.pushAddress a off).getOPs = writeBytes p.getOPs off (uint32Bytes a) := by
  unfold Program.pushAddress
  rw [getOPs_modifyOPs _ _ hv]
  simp [hoff]

theorem getOPs_pushInt32Address_append (p : Program) (a : Int)
    (hv : p.activeValid) :
    (p.pushInt32Address a 0).getOPs = p.getOPs ++ int32Bytes a := by
  unfold Program.pushInt32Address
  rw [getOPs_modifyOPs _ _ hv]
  simp [writeBytes_append]

theorem getOPs_pushInt32Address_patch (p : Program) (a : Int) (off : Nat)
    (hv : p.activeValid) (hoff : off ≠ 0) :
    (p.pushInt32Address a off).getOPs =
      writeBytes p.getOPs off (int32Bytes a) := by
  unfold Program.pushInt32Address
  rw [getOPs_modifyOPs _ _ hv]
  simp [hoff]

theorem getOPs_pushSection (p : Program) :
    (p.pushSection).getOPs = p.getOPs := by
  rw [pushSection_eq]
  exact getOPs_subPattern _ _ ops_subPushSection

theorem getOPs_popSection (p : Program) :
    (p.popSection).getOPs = p.getOPs := by
  rw [popSection_eq]
  exact getOPs_subPattern _ _ ops_subPopSection

theorem getOPs_blockTailCall (p : Program) :
    (p.blockTailCall).getOPs = p.getOPs := by
  rw [blockTailCall_eq]
  exact getOPs_subPattern _ _ ops_subBlockTailCall

theorem getOPs_ignoreNextSectionOP (p : Program) :
    (p.ignoreNextSectionOP).getOPs = p.getOPs := by
  rw [ignoreNextSectionOP_eq]
  exact getOPs_subPattern _ _ ops_subIgnore

theorem activeValid_pushSection (p : Program) (hv : p.activeValid) :
    (p.pushSection).activeValid := by
  rw [pushSection_eq]
  exact activeValid_subPattern _ _ hv

theorem activeValid_popSection (p : Program) (hv : p.activeValid) :
    (p.popSection).activeValid := by
  rw [popSection_eq]
  exact activeValid_subPattern _ _ hv

theorem activeValid_blockTailCall (p : Program) (hv : p.activeValid) :
    (p.blockTailCall).activeValid := by
  rw [blockTailCall_eq]
  exact activeValid_subPattern _ _ hv

theorem activeValid_ignoreNextSectionOP (p : Program) (hv : p.activeValid) :
    (p.ignoreNextSectionOP).activeValid := by
  rw [ignoreNextSectionOP_eq]
  exact activeValid_subPattern _ _ hv

theorem getOPs_popFrame (p : Program) (hv : p.activeValid) :
    (p.popFrame).getOPs = p.getOPs ++ [OP.FrameEnd.code] := by
  unfold Program.popFrame
  rw [getOPs_popFrameImplicit, getOPs_pushOp _ _ hv]

theorem activeValid_popFrame (p : Program) (hv : p.activeValid) :
    (p.popFrame).activeValid :=
  activeValid_popFrameImplicit _ (activeValid_pushOp p _ hv)

/-- The explicit emitter composition that
`Compiler.handleConditionalType` reduces to in the non-distributive
case (all four lowerings instantiated with `appendOps`); established
against the definition by `condNonDist_red` below. -/
def condNonDistResult (c x t f : List Nat) (pos e : Nat) (p : Program) :
    Program :=
  let p := p.pushSection
  let p := p.pushFrame false
  let p := p.setCurrentConditional
  let p := p.modifyOPs (fun ops => ops ++ c)
  let p := p.modifyOPs (fun ops => ops ++ x)
  let p := p.pushOpNode OP.Extends pos e
  let p := p.pushOp OP.JumpCondition
  let relativeTo := p.ip
  let falseJumpAddressIp := p.ip
  let p := p.pushAddress 0 0
  let p := p.pushSection
  let p := p.modifyOPs (fun ops => ops ++ t)
  let p := p.popSection
  let p := p.ignoreNextSectionOP
  let p := p.pushOp OP.Jump
  let trueJumpAddressIp := p.ip
  let p := p.pushAddress 0 0
  let falseProgram := p.ip + 1
  let p := p.pushSection
  let p := p.modifyOPs (fun ops => ops ++ f)
  let p := p.popSection
  let falseEndIp := p.ip
  let p := p.pushInt32Address ((falseProgram : Int) - (relativeTo : Int))
    falseJumpAddressIp
  let p := p.pushInt32Address
    ((falseEndIp : Int) - (trueJumpAddressIp : Int) + 1) trueJumpAddressIp
  let p := (p.ignoreNextSectionOP).popFrame
  p.popSection

/-- The explicit emitter composition for the distributive case. -/
def condDistResult (c x t f : List Nat) (name : String)
    (ipos iend pos e : Nat) (p : Program) : Program :=
  let p := p.pushSection
  let p := p.modifyOPs (fun ops => ops ++ c)
  let p := p.blockTailCall
  let p := p.pushFrame true
  let p := (p.pushSymbol name .TypeVariable ipos iend).2
  let p := p.pushOp OP.Distribute
  let dji := p.ip
  let p := p.pushAddress 0 0
  let p := p.pushFrame false
  let p := p.setCurrentConditional
  let p := p.modifyOPs (fun ops => ops ++ c)
  let p := p.modifyOPs (fun ops => ops ++ x)
  let p := p.pushOpNode OP.Extends pos e
  let p := p.pushOp OP.JumpCondition
  let relativeTo := p.ip
  let falseJumpAddressIp := p.ip
  let p := p.pushAddress 0 0
  let p := p.pushSection
  let p := p.modifyOPs (fun ops => ops ++ t)
  let p := p.popSection
  let p := p.ignoreNextSectionOP
  let p := p.pushOp OP.Jump
  let trueJumpAddressIp := p.ip
  let p := p.pushAddress 0 0
  let falseProgram := p.ip + 1
  let p := p.pushSection
  let p := p.modifyOPs (fun ops => ops ++ f)
  let p := p.popSection
  let falseEndIp := p.ip
  let p := p.pushInt32Address ((falseProgram : Int) - (relativeTo : Int))
    falseJumpAddressIp
  let p := p.pushInt32Address
    ((falseEndIp : Int) - (trueJumpAddressIp : Int) + 1) trueJumpAddressIp
  let p := p.pushAddress (falseEndIp - dji + 6) dji
  let p := p.ignoreNextSectionOP
  let p := p.pushOp OP.FrameReturnJump
  let p := p.pushInt32Address (-((p.ip : Int) - (dji : Int))) 0
  let p := p.popFrameImplicit
  p.popSection

theorem condNonDist_red (c x t f : List Nat) (pos e : Nat) (p : Program) :
    Compiler.handleConditionalType (appendOps c) (appendOps x)
        (appendOps t) (appendOps f) none pos e p =
      .ok (condNonDistResult c x t f pos e p) := rfl

theorem condDist_red (c x t f : List Nat) (name : String)
    (ipos iend pos e : Nat) (p : Program) :
    Compiler.handleConditionalType (appendOps c) (appendOps x)
        (appendOps t) (appendOps f) (some (name, ipos, iend)) pos e p =
      .ok (condDistResult c x t f name ipos iend pos e p) := rfl

theorem condNonDist_getOPs (p : Program) (hv : p.activeValid)
    (c x t f : List Nat) (pos e : Nat) :
    (condNonDistResult c x t f pos e p).getOPs =
      p.getOPs ++ [OP.Frame.code] ++ c ++ x ++ [OP.Extends.code] ++
      [OP.JumpCondition.code] ++
      int32Bytes (((p.getOPs.length + c.length + x.length + 3 + 4 + t.length + 1 + 4 + 1 : Nat) : Int) -
        ((p.getOPs.length + c.length + x.length + 3 : Nat) : Int)) ++
      t ++ [OP.Jump.code] ++
      int32Bytes (((p.getOPs.length + c.length + x.length + 3 + 4 + t.length + 1 + 4 + f.length : Nat) : Int) -
        ((p.getOPs.length + c.length + x.length + 3 + 4 + t.length + 1 : Nat) : Int) + 1) ++
      f ++ [OP.FrameEnd.code] := by
  simp only [condNonDistResult]
  obtain ⟨s0, hs0⟩ : ∃ y, p.pushSection = y := ⟨_, rfl⟩
  rw [hs0]
  have v0 : s0.activeValid := hs0 ▸ activeValid_pushSection p hv
  have g0 : s0.getOPs = p.getOPs := hs0 ▸ getOPs_pushSection p
  obtain ⟨s1, hs1⟩ : ∃ y, s0.pushFrame false = y := ⟨_, rfl⟩
  rw [hs1]
  have v1 : s1.activeValid := hs1 ▸ activeValid_pushFrame s0 false v0
  have g1 : s1.getOPs = s0.getOPs ++ [OP.Frame.code] :=
    hs1 ▸ getOPs_pushFrame_false s0 v0
  obtain ⟨s2, hs2⟩ : ∃ y, s1.setCurrentConditional = y := ⟨_, rfl⟩
  rw [hs2]
  have v2 : s2.activeValid := hs2 ▸ activeValid_setCurrentConditional s1 v1
  have g2 : s2.getOPs = s1.getOPs := hs2 ▸ getOPs_setCurrentConditional s1
  obtain ⟨s3, hs3⟩ : ∃ y, s2.modifyOPs (fun ops => ops ++ c) = y := ⟨_, rfl⟩
  rw [hs3]
  have v3 : s3.activeValid := hs3 ▸ activeValid_modifyOPs s2 _ v2
  have g3 : s3.getOPs = s2.getOPs ++ c :=
    hs3 ▸ getOPs_modifyOPs s2 _ v2
  obtain ⟨s4, hs4⟩ : ∃ y, s3.modifyOPs (fun ops => ops ++ x) = y := ⟨_, rfl⟩
  rw [hs4]
  have v4 : s4.activeValid := hs4 ▸ activeValid_modifyOPs s3 _ v3
  have g4 : s4.getOPs = s3.getOPs ++ x :=
    hs4 ▸ getOPs_modifyOPs s3 _ v3
  obtain ⟨s5, hs5⟩ : ∃ y, s4.pushOpNode OP.Extends pos e = y := ⟨_, rfl⟩
  rw [hs5]
  have v5 : s5.activeValid := hs5 ▸ activeValid_pushOpNode s4 OP.Extends pos e v4
  have g5 : s5.getOPs = s4.getOPs ++ [OP.Extends.code] :=
    hs5 ▸ getOPs_pushOpNode s4 OP.Extends pos e v4
  obtain ⟨s6, hs6⟩ : ∃ y, s5.pushOp OP.JumpCondition = y := ⟨_, rfl⟩
  rw [hs6]
  have v6 : s6.activeValid := hs6 ▸ activeValid_pushOp s5 OP.JumpCondition v5
  have g6 : s6.getOPs = s5.getOPs ++ [OP.JumpCondition.code] :=
    hs6 ▸ getOPs_pushOp s5 OP.JumpCondition v5
  obtain ⟨s7, hs7⟩ : ∃ y, s6.pushAddress 0 0 = y := ⟨_, rfl⟩
  rw [hs7]
  have v7 : s7.activeValid := hs7 ▸ activeValid_pushAddress s6 0 0 v6
  have g7 : s7.getOPs = s6.getOPs ++ uint32Bytes 0 :=
    hs7 ▸ getOPs_pushAddress_append s6 0 v6
  obtain ⟨s8, hs8⟩ : ∃ y, s7.pushSection = y := ⟨_, rfl⟩
  rw [hs8]
  have v8 : s8.activeValid := hs8 ▸ activeValid_pushSection s7 v7
  have g8 : s8.getOPs = s7.getOPs := hs8 ▸ getOPs_pushSection s7
  obtain ⟨s9, hs9⟩ : ∃ y, s8.modifyOPs (fun ops => ops ++ t) = y := ⟨_, rfl⟩
  rw [hs9]
  have v9 : s9.activeValid := hs9 ▸ activeValid_modifyOPs s8 _ v8
  have g9 : s9.getOPs = s8.getOPs ++ t :=
    hs9 ▸ getOPs_modifyOPs s8 _ v8
  obtain ⟨s10, hs10⟩ : ∃ y, s9.popSection = y := ⟨_, rfl⟩
  rw [hs10]
  have v10 : s10.activeValid := hs10 ▸ activeValid_popSection s9 v9
  have g10 : s10.getOPs = s9.getOPs := hs10 ▸ getOPs_popSection s9
  obtain ⟨s11, hs11⟩ : ∃ y, s10.ignoreNextSectionOP = y := ⟨_, rfl⟩
  rw [hs11]
  have v11 : s11.activeValid := hs11 ▸ activeValid_ignoreNextSectionOP s10 v10
  have g11 : s11.getOPs = s10.getOPs := hs11 ▸ getOPs_ignoreNextSectionOP s10
  obtain ⟨s12, hs12⟩ : ∃ y, s11.pushOp OP.Jump = y := ⟨_, rfl⟩
  rw [hs12]
  have v12 : s12.activeValid := hs12 ▸ activeValid_pushOp s11 OP.Jump v11
  have g12 : s12.getOPs = s11.getOPs ++ [OP.Jump.code] :=
    hs12 ▸ getOPs_pushOp s11 OP.Jump v11
  obtain ⟨s13, hs13⟩ : ∃ y, s12.pushAddress 0 0 = y := ⟨_, rfl⟩
  rw [hs13]
  have v13 : s13.activeValid := hs13 ▸ activeValid_pushAddress s12 0 0 v12
  have g13 : s13.getOPs = s12.getOPs ++ uint32Bytes 0 :=
    hs13 ▸ getOPs_pushAddress_append s12 0 v12
  obtain ⟨s14, hs14⟩ : ∃ y, s13.pushSection = y := ⟨_, rfl⟩
  rw [hs14]
  have v14 : s14.activeValid := hs14 ▸ activeValid_pushSection s13 v13
  have g14 : s14.getOPs = s13.getOPs := hs14 ▸ getOPs_pushSection s13
  obtain ⟨s15, hs15⟩ : ∃ y, s14.modifyOPs (fun ops => ops ++ f) = y := ⟨_, rfl⟩
  rw [hs15]
  have v15 : s15.activeValid := hs15 ▸ activeValid_modifyOPs s14 _ v14
  have g15 : s15.getOPs = s14.getOPs ++ f :=
    hs15 ▸ getOPs_modifyOPs s14 _ v14
  obtain ⟨s16, hs16⟩ : ∃ y, s15.popSection = y := ⟨_, rfl⟩
  rw [hs16]
  have v16 : s16.activeValid := hs16 ▸ activeValid_popSection s15 v15
  have g16 : s16.getOPs = s15.getOPs := hs16 ▸ getOPs_popSection s15
  have G6 : s6.getOPs = p.getOPs ++ [OP.Frame.code] ++ c ++ x ++
      [OP.Extends.code] ++ [OP.JumpCondition.code] := by
    rw [g6, g5, g4, g3, g2, g1, g0]
  have G12 : s12.getOPs = p.getOPs ++ [OP.Frame.code] ++ c ++ x ++
      [OP.Extends.code] ++ [OP.JumpCondition.code] ++ uint32Bytes 0 ++ t ++
      [OP.Jump.code] := by
    rw [g12, g11, g10, g9, g8, g7, g6, g5, g4, g3, g2, g1, g0]
  have G13 : s13.getOPs = p.getOPs ++ [OP.Frame.code] ++ c ++ x ++
      [OP.Extends.code] ++ [OP.JumpCondition.code] ++ uint32Bytes 0 ++ t ++
      [OP.Jump.code] ++ uint32Bytes 0 := by
    rw [g13, g12, g11, g10, g9, g8, g7, g6, g5, g4, g3, g2, g1, g0]
  have G16 : s16.getOPs = p.getOPs ++ [OP.Frame.code] ++ c ++ x ++
      [OP.Extends.code] ++ [OP.JumpCondition.code] ++ uint32Bytes 0 ++ t ++
      [OP.Jump.code] ++ uint32Bytes 0 ++ f := by
    rw [g16, g15, g14, g13, g12, g11, g10, g9, g8, g7, g6, g5, g4, g3, g2, g1, g0]
  have e6 : s6.ip = p.getOPs.length + c.length + x.length + 3 := by
    unfold Program.ip
    rw [G6]
    simp only [List.length_append, List.length_cons, List.length_nil]
    omega
  have e12 : s12.ip = p.getOPs.length + c.length + x.length + 3 + 4 + t.length + 1 := by
    unfold Program.ip
    rw [G12]
    simp only [List.length_append, List.length_cons, List.length_nil,
      length_uint32Bytes]
    omega
  have e13 : s13.ip = p.getOPs.length + c.length + x.length + 3 + 4 + t.length + 1 + 4 := by
    unfold Program.ip
    rw [G13]
    simp only [List.length_append, List.length_cons, List.length_nil,
      length_uint32Bytes]
    omega
  have e16 : s16.ip = p.getOPs.length + c.length + x.length + 3 + 4 + t.length + 1 + 4 + f.length := by
    unfold Program.ip
    rw [G16]
    simp only [List.length_append, List.length_cons, List.length_nil,
      length_uint32Bytes]
    omega
  have hoff6 : s6.ip ≠ 0 := by
    rw [e6]; omega
  have hoff12 : s12.ip ≠ 0 := by
    rw [e12]; omega
  obtain ⟨s17, hs17⟩ : ∃ y,
      s16.pushInt32Address (((s13.ip + 1 : Nat) : Int) - ((s6.ip : Nat) : Int)) s6.ip = y := ⟨_, rfl⟩
  rw [hs17]
  have v17 : s17.activeValid :=
    hs17 ▸ activeValid_pushInt32Address s16 _ _ v16
  have g17 : s17.getOPs = p.getOPs ++ [OP.Frame.code] ++ c ++ x ++
      [OP.Extends.code] ++ [OP.JumpCondition.code] ++
      int32Bytes (((s13.ip + 1 : Nat) : Int) - ((s6.ip : Nat) : Int)) ++
      (t ++ [OP.Jump.code] ++ uint32Bytes 0 ++ f) := by
    have hsh : s16.getOPs = (p.getOPs ++ [OP.Frame.code] ++ c ++ x ++
        [OP.Extends.code] ++ [OP.JumpCondition.code]) ++ uint32Bytes 0 ++
        (t ++ [OP.Jump.code] ++ uint32Bytes 0 ++ f) := by
      rw [G16]; simp [List.append_assoc]
    have hlen : s6.ip = (p.getOPs ++ [OP.Frame.code] ++ c ++ x ++
        [OP.Extends.code] ++ [OP.JumpCondition.code]).length := by
      unfold Program.ip
      rw [G6]
    rw [← hs17, getOPs_pushInt32Address_patch s16 _ _ v16 hoff6, hsh, hlen]
    exact writeBytes_region _ _ _ _ rfl (by decide)
  obtain ⟨s18, hs18⟩ : ∃ y,
      s17.pushInt32Address (((s16.ip : Nat) : Int) - ((s12.ip : Nat) : Int) + 1) s12.ip = y := ⟨_, rfl⟩
  rw [hs18]
  have v18 : s18.activeValid :=
    hs18 ▸ activeValid_pushInt32Address s17 _ _ v17
  have g18 : s18.getOPs = p.getOPs ++ [OP.Frame.code] ++ c ++ x ++
      [OP.Extends.code] ++ [OP.JumpCondition.code] ++
      int32Bytes (((s13.ip + 1 : Nat) : Int) - ((s6.ip : Nat) : Int)) ++ t ++
      [OP.Jump.code] ++
      int32Bytes (((s16.ip : Nat) : Int) - ((s12.ip : Nat) : Int) + 1) ++ f := by
    have hsh2 : s17.getOPs = (p.getOPs ++ [OP.Frame.code] ++ c ++ x ++
        [OP.Extends.code] ++ [OP.JumpCondition.code] ++
        int32Bytes (((s13.ip + 1 : Nat) : Int) - ((s6.ip : Nat) : Int)) ++ t ++
        [OP.Jump.code]) ++ uint32Bytes 0 ++ f := by
      rw [g17]; simp [List.append_assoc]
    have hlen2 : s12.ip = (p.getOPs ++ [OP.Frame.code] ++ c ++ x ++
        [OP.Extends.code] ++ [OP.JumpCondition.code] ++
        int32Bytes (((s13.ip + 1 : Nat) : Int) - ((s6.ip : Nat) : Int)) ++ t ++
        [OP.Jump.code]).length := by
      unfold Program.ip
      rw [G12]
      simp only [List.length_append, List.length_cons, List.length_nil,
        length_uint32Bytes, length_int32Bytes]
    rw [← hs18, getOPs_pushInt32Address_patch s17 _ _ v17 hoff12, hsh2, hlen2]
    exact writeBytes_region _ _ _ _ rfl (by decide)
  obtain ⟨s19, hs19⟩ : ∃ y, s18.ignoreNextSectionOP = y := ⟨_, rfl⟩
  rw [hs19]
  have v19 : s19.activeValid := hs19 ▸ activeValid_ignoreNextSectionOP s18 v18
  have g19 : s19.getOPs = s18.getOPs := hs19 ▸ getOPs_ignoreNextSectionOP s18
  obtain ⟨s20, hs20⟩ : ∃ y, s19.popFrame = y := ⟨_, rfl⟩
  rw [hs20]
  have g20 : s20.getOPs = s19.getOPs ++ [OP.FrameEnd.code] :=
    hs20 ▸ getOPs_popFrame s19 v19
  rw [getOPs_popSection, g20, g19, g18, e13, e6, e16, e12]

theorem condDist_getOPs (p : Program) (hv : p.activeValid)
    (c x t f : List Nat) (name : String) (ipos iend pos e : Nat) :
    (condDistResult c x t f name ipos iend pos e p).getOPs =
      p.getOPs ++ c ++ [OP.Distribute.code] ++
      uint32Bytes (p.getOPs.length + c.length + 1 + 4 + 1 + c.length + x.length + 2 + 4 + t.length + 1 + 4 + f.length - (p.getOPs.length + c.length + 1) + 6) ++
      [OP.Frame.code] ++ c ++ x ++ [OP.Extends.code] ++
      [OP.JumpCondition.code] ++
      int32Bytes (((p.getOPs.length + c.length + 1 + 4 + 1 + c.length + x.length + 2 + 4 + t.length + 1 + 4 + 1 : Nat) : Int) -
        ((p.getOPs.length + c.length + 1 + 4 + 1 + c.length + x.length + 2 : Nat) : Int)) ++
      t ++ [OP.Jump.code] ++
      int32Bytes (((p.getOPs.length + c.length + 1 + 4 + 1 + c.length + x.length + 2 + 4 + t.length + 1 + 4 + f.length : Nat) : Int) -
        ((p.getOPs.length + c.length + 1 + 4 + 1 + c.length + x.length + 2 + 4 + t.length + 1 : Nat) : Int) + 1) ++
      f ++ [OP.FrameReturnJump.code] ++
      int32Bytes (-(((p.getOPs.length + c.length + 1 + 4 + 1 + c.length + x.length + 2 + 4 + t.length + 1 + 4 + f.length + 1 : Nat) : Int) -
        ((p.getOPs.length + c.length + 1 : Nat) : Int))) := by
  simp only [condDistResult]
  obtain ⟨s0, hs0⟩ : ∃ y, p.pushSection = y := ⟨_, rfl⟩
  rw [hs0]
  have v0 : s0.activeValid := hs0 ▸ activeValid_pushSection p hv
  have g0 : s0.getOPs = p.getOPs := hs0 ▸ getOPs_pushSection p
  obtain ⟨s1, hs1⟩ : ∃ y, s0.modifyOPs (fun ops => ops ++ c) = y := ⟨_, rfl⟩
  rw [hs1]
  have v1 : s1.activeValid := hs1 ▸ activeValid_modifyOPs s0 _ v0
  have g1 : s1.getOPs = s0.getOPs ++ c :=
    hs1 ▸ getOPs_modifyOPs s0 _ v0
  obtain ⟨s2, hs2⟩ : ∃ y, s1.blockTailCall = y := ⟨_, rfl⟩
  rw [hs2]
  have v2 : s2.activeValid := hs2 ▸ activeValid_blockTailCall s1 v1
  have g2 : s2.getOPs = s1.getOPs := hs2 ▸ getOPs_blockTailCall s1
  obtain ⟨s3, hs3⟩ : ∃ y, s2.pushFrame true = y := ⟨_, rfl⟩
  rw [hs3]
  have v3 : s3.activeValid := hs3 ▸ activeValid_pushFrame s2 true v2
  have g3 : s3.getOPs = s2.getOPs := hs3 ▸ getOPs_pushFrame_true s2
  obtain ⟨s4, hs4⟩ : ∃ y, (s3.pushSymbol name SymbolType.TypeVariable ipos iend).2 = y := ⟨_, rfl⟩
  rw [hs4]
  have v4 : s4.activeValid := hs4 ▸ activeValid_pushSymbolSnd s3 name SymbolType.TypeVariable ipos iend v3
  have g4 : s4.getOPs = s3.getOPs := hs4 ▸ getOPs_pushSymbolSnd s3 name SymbolType.TypeVariable ipos iend
  obtain ⟨s5, hs5⟩ : ∃ y, s4.pushOp OP.Distribute = y := ⟨_, rfl⟩
  rw [hs5]
  have v5 : s5.activeValid := hs5 ▸ activeValid_pushOp s4 OP.Distribute v4
  have g5 : s5.getOPs = s4.getOPs ++ [OP.Distribute.code] :=
    hs5 ▸ getOPs_pushOp s4 OP.Distribute v4
  obtain ⟨s6, hs6⟩ : ∃ y, s5.pushAddress 0 0 = y := ⟨_, rfl⟩
  rw [hs6]
  have v6 : s6.activeValid := hs6 ▸ activeValid_pushAddress s5 0 0 v5
  have g6 : s6.getOPs = s5.getOPs ++ uint32Bytes 0 :=
    hs6 ▸ getOPs_pushAddress_append s5 0 v5
  obtain ⟨s7, hs7⟩ : ∃ y, s6.pushFrame false = y := ⟨_, rfl⟩
  rw [hs7]
  have v7 : s7.activeValid := hs7 ▸ activeValid_pushFrame s6 false v6
  have g7 : s7.getOPs = s6.getOPs ++ [OP.Frame.code] :=
    hs7 ▸ getOPs_pushFrame_false s6 v6
  obtain ⟨s8, hs8⟩ : ∃ y, s7.setCurrentConditional = y := ⟨_, rfl⟩
  rw [hs8]
  have v8 : s8.activeValid := hs8 ▸ activeValid_setCurrentConditional s7 v7
  have g8 : s8.getOPs = s7.getOPs := hs8 ▸ getOPs_setCurrentConditional s7
  obtain ⟨s9, hs9⟩ : ∃ y, s8.modifyOPs (fun ops => ops ++ c) = y := ⟨_, rfl⟩
  rw [hs9]
  have v9 : s9.activeValid := hs9 ▸ activeValid_modifyOPs s8 _ v8
  have g9 : s9.getOPs = s8.getOPs ++ c :=
    hs9 ▸ getOPs_modifyOPs s8 _ v8
  obtain ⟨s10, hs10⟩ : ∃ y, s9.modifyOPs (fun ops => ops ++ x) = y := ⟨_, rfl⟩
  rw [hs10]
  have v10 : s10.activeValid := hs10 ▸ activeValid_modifyOPs s9 _ v9
  have g10 : s10.getOPs = s9.getOPs ++ x :=
    hs10 ▸ getOPs_modifyOPs s9 _ v9
  obtain ⟨s11, hs11⟩ : ∃ y, s10.pushOpNode OP.Extends pos e = y := ⟨_, rfl⟩
  rw [hs11]
  have v11 : s11.activeValid := hs11 ▸ activeValid_pushOpNode s10 OP.Extends pos e v10
  have g11 : s11.getOPs = s10.getOPs ++ [OP.Extends.code] :=
    hs11 ▸ getOPs_pushOpNode s10 OP.Extends pos e v10
  obtain ⟨s12, hs12⟩ : ∃ y, s11.pushOp OP.JumpCondition = y := ⟨_, rfl⟩
  rw [hs12]
  have v12 : s12.activeValid := hs12 ▸ activeValid_pushOp s11 OP.JumpCondition v11
  have g12 : s12.getOPs = s11.getOPs ++ [OP.JumpCondition.code] :=
    hs12 ▸ getOPs_pushOp s11 OP.JumpCondition v11
  obtain ⟨s13, hs13⟩ : ∃ y, s12.pushAddress 0 0 = y := ⟨_, rfl⟩
  rw [hs13]
  have v13 : s13.activeValid := hs13 ▸ activeValid_pushAddress s12 0 0 v12
  have g13 : s13.getOPs = s12.getOPs ++ uint32Bytes 0 :=
    hs13 ▸ getOPs_pushAddress_append s12 0 v12
  obtain ⟨s14, hs14⟩ : ∃ y, s13.pushSection = y := ⟨_, rfl⟩
  rw [hs14]
  have v14 : s14.activeValid := hs14 ▸ activeValid_pushSection s13 v13
  have g14 : s14.getOPs = s13.getOPs := hs14 ▸ getOPs_pushSection s13
  obtain ⟨s15, hs15⟩ : ∃ y, s14.modifyOPs (fun ops => ops ++ t) = y := ⟨_, rfl⟩
  rw [hs15]
  have v15 : s15.activeValid := hs15 ▸ activeValid_modifyOPs s14 _ v14
  have g15 : s15.getOPs = s14.getOPs ++ t :=
    hs15 ▸ getOPs_modifyOPs s14 _ v14
  obtain ⟨s16, hs16⟩ : ∃ y, s15.popSection = y := ⟨_, rfl⟩
  rw [hs16]
  have v16 : s16.activeValid := hs16 ▸ activeValid_popSection s15 v15
  have g16 : s16.getOPs = s15.getOPs := hs16 ▸ getOPs_popSection s15
  obtain ⟨s17, hs17⟩ : ∃ y, s16.ignoreNextSectionOP = y := ⟨_, rfl⟩
  rw [hs17]
  have v17 : s17.activeValid := hs17 ▸ activeValid_ignoreNextSectionOP s16 v16
  have g17 : s17.getOPs = s16.getOPs := hs17 ▸ getOPs_ignoreNextSectionOP s16
  obtain ⟨s18, hs18⟩ : ∃ y, s17.pushOp OP.Jump = y := ⟨_, rfl⟩
  rw [hs18]
  have v18 : s18.activeValid := hs18 ▸ activeValid_pushOp s17 OP.Jump v17
  have g18 : s18.getOPs = s17.getOPs ++ [OP.Jump.code] :=
    hs18 ▸ getOPs_pushOp s17 OP.Jump v17
  obtain ⟨s19, hs19⟩ : ∃ y, s18.pushAddress 0 0 = y := ⟨_, rfl⟩
  rw [hs19]
  have v19 : s19.activeValid := hs19 ▸ activeValid_pushAddress s18 0 0 v18
  have g19 : s19.getOPs = s18.getOPs ++ uint32Bytes 0 :=
    hs19 ▸ getOPs_pushAddress_append s18 0 v18
  obtain ⟨s20, hs20⟩ : ∃ y, s19.pushSection = y := ⟨_, rfl⟩
  rw [hs20]
  have v20 : s20.activeValid := hs20 ▸ activeValid_pushSection s19 v19
  have g20 : s20.getOPs = s19.getOPs := hs20 ▸ getOPs_pushSection s19
  obtain ⟨s21, hs21⟩ : ∃ y, s20.modifyOPs (fun ops => ops ++ f) = y := ⟨_, rfl⟩
  rw [hs21]
  have v21 : s21.activeValid := hs21 ▸ activeValid_modifyOPs s20 _ v20
  have g21 : s21.getOPs = s20.getOPs ++ f :=
    hs21 ▸ getOPs_modifyOPs s20 _ v20
  obtain ⟨s22, hs22⟩ : ∃ y, s21.popSection = y := ⟨_, rfl⟩
  rw [hs22]
  have v22 : s22.activeValid := hs22 ▸ activeValid_popSection s21 v21
  have g22 : s22.getOPs = s21.getOPs := hs22 ▸ getOPs_popSection s21
  have G5 : s5.getOPs = p.getOPs ++ c ++ [OP.Distribute.code] := by
    rw [g5, g4, g3, g2, g1, g0]
  have G12 : s12.getOPs = p.getOPs ++ c ++ [OP.Distribute.code] ++ uint32Bytes 0 ++
      [OP.Frame.code] ++ c ++ x ++ [OP.Extends.code] ++ [OP.JumpCondition.code] := by
    rw [g12, g11, g10, g9, g8, g7, g6, g5, g4, g3, g2, g1, g0]
  have G18 : s18.getOPs = p.getOPs ++ c ++ [OP.Distribute.code] ++ uint32Bytes 0 ++
      [OP.Frame.code] ++ c ++ x ++ [OP.Extends.code] ++ [OP.JumpCondition.code] ++ uint32Bytes 0 ++ t ++
      [OP.Jump.code] := by
    rw [g18, g17, g16, g15, g14, g13, g12, g11, g10, g9, g8, g7, g6, g5, g4, g3, g2, g1, g0]
  have G19 : s19.getOPs = p.getOPs ++ c ++ [OP.Distribute.code] ++ uint32Bytes 0 ++
      [OP.Frame.code] ++ c ++ x ++ [OP.Extends.code] ++ [OP.JumpCondition.code] ++ uint32Bytes 0 ++ t ++
      [OP.Jump.code] ++ uint32Bytes 0 := by
    rw [g19, g18, g17, g16, g15, g14, g13, g12, g11, g10, g9, g8, g7, g6, g5, g4, g3, g2, g1, g0]
  have G22 : s22.getOPs = p.getOPs ++ c ++ [OP.Distribute.code] ++ uint32Bytes 0 ++
      [OP.Frame.code] ++ c ++ x ++ [OP.Extends.code] ++ [OP.JumpCondition.code] ++ uint32Bytes 0 ++ t ++
      [OP.Jump.code] ++ uint32Bytes 0 ++ f := by
    rw [g22, g21, g20, g19, g18, g17, g16, g15, g14, g13, g12, g11, g10, g9, g8, g7, g6, g5, g4, g3, g2, g1, g0]
  have e5 : s5.ip = p.getOPs.length + c.length + 1 := by
    unfold Program.ip
    rw [G5]
    simp only [List.length_append, List.length_cons, List.length_nil]
  have e12 : s12.ip = p.getOPs.length + c.length + 1 + 4 + 1 + c.length + x.length + 2 := by
    unfold Program.ip
    rw [G12]
    simp only [List.length_append, List.length_cons, List.length_nil,
      length_uint32Bytes]
  have e18 : s18.ip = p.getOPs.length + c.length + 1 + 4 + 1 + c.length + x.length + 2 + 4 + t.length + 1 := by
    unfold Program.ip
    rw [G18]
    simp only [List.length_append, List.length_cons, List.length_nil,
      length_uint32Bytes]
  have e19 : s19.ip = p.getOPs.length + c.length + 1 + 4 + 1 + c.length + x.length + 2 + 4 + t.length + 1 + 4 := by
    unfold Program.ip
    rw [G19]
    simp only [List.length_append, List.length_cons, List.length_nil,
      length_uint32Bytes]
  have e22 : s22.ip = p.getOPs.length + c.length + 1 + 4 + 1 + c.length + x.length + 2 + 4 + t.length + 1 + 4 + f.length := by
    unfold Program.ip
    rw [G22]
    simp only [List.length_append, List.length_cons, List.length_nil,
      length_uint32Bytes]
  have hoff12 : s12.ip ≠ 0 := by
    rw [e12]; omega
  have hoff18 : s18.ip ≠ 0 := by
    rw [e18]; omega
  have hoff5 : s5.ip ≠ 0 := by
    rw [e5]; omega
  obtain ⟨s23, hs23⟩ : ∃ y,
      s22.pushInt32Address (((s19.ip + 1 : Nat) : Int) - ((s12.ip : Nat) : Int)) s12.ip = y := ⟨_, rfl⟩
  rw [hs23]
  have v23 : s23.activeValid :=
    hs23 ▸ activeValid_pushInt32Address s22 _ _ v22
  have g23 : s23.getOPs = p.getOPs ++ c ++ [OP.Distribute.code] ++ uint32Bytes 0 ++
      [OP.Frame.code] ++ c ++ x ++ [OP.Extends.code] ++ [OP.JumpCondition.code] ++
      int32Bytes (((s19.ip + 1 : Nat) : Int) - ((s12.ip : Nat) : Int)) ++
      (t ++ [OP.Jump.code] ++ uint32Bytes 0 ++ f) := by
    have hsh : s22.getOPs = (p.getOPs ++ c ++ [OP.Distribute.code] ++ uint32Bytes 0 ++
      [OP.Frame.code] ++ c ++ x ++ [OP.Extends.code] ++ [OP.JumpCondition.code]) ++ uint32Bytes 0 ++
        (t ++ [OP.Jump.code] ++ uint32Bytes 0 ++ f) := by
      rw [G22]; simp [List.append_assoc]
    have hlen : s12.ip = (p.getOPs ++ c ++ [OP.Distribute.code] ++ uint32Bytes 0 ++
      [OP.Frame.code] ++ c ++ x ++ [OP.Extends.code] ++ [OP.JumpCondition.code]).length := by
      unfold Program.ip
      rw [G12]
    rw [← hs23, getOPs_pushInt32Address_patch s22 _ _ v22 hoff12, hsh, hlen]
    refine writeBytes_region _ _ _ _ ?_ (by decide)
    rfl
  obtain ⟨s24, hs24⟩ : ∃ y,
      s23.pushInt32Address (((s22.ip : Nat) : Int) - ((s18.ip : Nat) : Int) + 1) s18.ip = y := ⟨_, rfl⟩
  rw [hs24]
  have v24 : s24.activeValid :=
    hs24 ▸ activeValid_pushInt32Address s23 _ _ v23
  have g24 : s24.getOPs = p.getOPs ++ c ++ [OP.Distribute.code] ++ uint32Bytes 0 ++
      [OP.Frame.code] ++ c ++ x ++ [OP.Extends.code] ++ [OP.JumpCondition.code] ++
      int32Bytes (((s19.ip + 1 : Nat) : Int) - ((s12.ip : Nat) : Int)) ++ t ++
      [OP.Jump.code] ++
      int32Bytes (((s22.ip : Nat) : Int) - ((s18.ip : Nat) : Int) + 1) ++ f := by
    have hsh2 : s23.getOPs = (p.getOPs ++ c ++ [OP.Distribute.code] ++ uint32Bytes 0 ++
      [OP.Frame.code] ++ c ++ x ++ [OP.Extends.code] ++ [OP.JumpCondition.code] ++
        int32Bytes (((s19.ip + 1 : Nat) : Int) - ((s12.ip : Nat) : Int)) ++ t ++
        [OP.Jump.code]) ++ uint32Bytes 0 ++ f := by
      rw [g23]; simp [List.append_assoc]
    have hlen2 : s18.ip = (p.getOPs ++ c ++ [OP.Distribute.code] ++ uint32Bytes 0 ++
      [OP.Frame.code] ++ c ++ x ++ [OP.Extends.code] ++ [OP.JumpCondition.code] ++
        int32Bytes (((s19.ip + 1 : Nat) : Int) - ((s12.ip : Nat) : Int)) ++ t ++
        [OP.Jump.code]).length := by
      unfold Program.ip
      rw [G18]
      simp only [List.length_append, List.length_cons, List.length_nil,
        length_uint32Bytes, length_int32Bytes]
    rw [← hs24, getOPs_pushInt32Address_patch s23 _ _ v23 hoff18, hsh2, hlen2]
    refine writeBytes_region _ _ _ _ ?_ (by decide)
    rfl
  obtain ⟨s25, hs25⟩ : ∃ y,
      s24.pushAddress (s22.ip - s5.ip + 6) s5.ip = y := ⟨_, rfl⟩
  rw [hs25]
  have v25 : s25.activeValid := hs25 ▸ activeValid_pushAddress s24 _ _ v24
  have g25 : s25.getOPs = (p.getOPs ++ c ++ [OP.Distribute.code]) ++
      uint32Bytes (s22.ip - s5.ip + 6) ++
      ([OP.Frame.code] ++ c ++ x ++ [OP.Extends.code] ++
        [OP.JumpCondition.code] ++
        int32Bytes (((s19.ip + 1 : Nat) : Int) - ((s12.ip : Nat) : Int)) ++ t ++
        [OP.Jump.code] ++
        int32Bytes (((s22.ip : Nat) : Int) - ((s18.ip : Nat) : Int) + 1) ++ f) := by
    have hsh3 : s24.getOPs = (p.getOPs ++ c ++ [OP.Distribute.code]) ++
        uint32Bytes 0 ++
        ([OP.Frame.code] ++ c ++ x ++ [OP.Extends.code] ++
          [OP.JumpCondition.code] ++
          int32Bytes (((s19.ip + 1 : Nat) : Int) - ((s12.ip : Nat) : Int)) ++ t ++
          [OP.Jump.code] ++
          int32Bytes (((s22.ip : Nat) : Int) - ((s18.ip : Nat) : Int) + 1) ++ f) := by
      rw [g24]; simp [List.append_assoc]
    have hlen3 : s5.ip = (p.getOPs ++ c ++ [OP.Distribute.code]).length := by
      unfold Program.ip
      rw [G5]
    rw [← hs25, getOPs_pushAddress_patch s24 _ _ v24 hoff5, hsh3, hlen3]
    refine writeBytes_region _ _ _ _ ?_ (by decide)
    rfl
  obtain ⟨s26, hs26⟩ : ∃ y, s25.ignoreNextSectionOP = y := ⟨_, rfl⟩
  rw [hs26]
  have v26 : s26.activeValid := hs26 ▸ activeValid_ignoreNextSectionOP s25 v25
  have g26 : s26.getOPs = s25.getOPs := hs26 ▸ getOPs_ignoreNextSectionOP s25
  obtain ⟨s27, hs27⟩ : ∃ y, s26.pushOp OP.FrameReturnJump = y := ⟨_, rfl⟩
  rw [hs27]
  have v27 : s27.activeValid :=
    hs27 ▸ activeValid_pushOp s26 OP.FrameReturnJump v26
  have g27 : s27.getOPs = s26.getOPs ++ [OP.FrameReturnJump.code] :=
    hs27 ▸ getOPs_pushOp s26 OP.FrameReturnJump v26
  have e27 : s27.ip = p.getOPs.length + c.length + 1 + 4 + 1 + c.length + x.length + 2 + 4 + t.length + 1 + 4 + f.length + 1 := by
    unfold Program.ip
    rw [g27, g26, g25]
    simp only [List.length_append, List.length_cons, List.length_nil,
      length_uint32Bytes, length_int32Bytes]
    omega
  obtain ⟨s28, hs28⟩ : ∃ y,
      s27.pushInt32Address (-(((s27.ip : Nat) : Int) - ((s5.ip : Nat) : Int))) 0 = y := ⟨_, rfl⟩
  rw [hs28]
  have g28 : s28.getOPs = s27.getOPs ++
      int32Bytes (-(((s27.ip : Nat) : Int) - ((s5.ip : Nat) : Int))) :=
    hs28 ▸ getOPs_pushInt32Address_append s27 _ v27
  obtain ⟨s29, hs29⟩ : ∃ y, s28.popFrameImplicit = y := ⟨_, rfl⟩
  rw [hs29]
  have g29 : s29.getOPs = s28.getOPs := hs29 ▸ getOPs_popFrameImplicit s28
  rw [getOPs_popSection, g29, g28, g27, g26, g25, e19, e12, e22, e18, e27, e5]
  simp [List.append_assoc]

/-- **C1.**  In conditional-type lowering (the four recursive `handle`
calls instrumented as net buffer appends `c`/`x`/`t`/`f`), the
back-patched signed ip-relative offsets are exactly: the false-jump
placeholder receives `falseProgram - relativeTo`, where `relativeTo` is
the ip immediately after the `JumpCondition` opcode and `falseProgram`
is the ip one past the reserved true-jump, plus 1; the true-jump
placeholder receives `falseEndIp - trueJumpAddressIp + 1`; and in the
distributive case the `Distribute` placeholder receives
`falseEndIp - distributeJumpIp + 6` and `FrameReturnJump` is followed
by the i32 `-(currentIp - distributeJumpIp)` (`currentIp` is the ip
right after the `FrameReturnJump` opcode). -/
theorem conditional_backpatch (p : Program) (hv : p.activeValid)
    (c x t f : List Nat) (name : String) (ipos iend pos e : Nat) :
    (∀ q, Compiler.handleConditionalType (appendOps c) (appendOps x)
        (appendOps t) (appendOps f) none pos e p = .ok q →
      let relativeTo := p.getOPs.length + c.length + x.length + 3
      let trueJumpAddressIp := relativeTo + 4 + t.length + 1
      let falseProgram := trueJumpAddressIp + 4 + 1
      let falseEndIp := trueJumpAddressIp + 4 + f.length
      q.getOPs =
        p.getOPs ++ [OP.Frame.code] ++ c ++ x ++ [OP.Extends.code] ++
        [OP.JumpCondition.code] ++
        int32Bytes ((falseProgram : Int) - (relativeTo : Int)) ++
        t ++ [OP.Jump.code] ++
        int32Bytes ((falseEndIp : Int) - (trueJumpAddressIp : Int) + 1) ++
        f ++ [OP.FrameEnd.code]) ∧
    (∀ q, Compiler.handleConditionalType (appendOps c) (appendOps x)
        (appendOps t) (appendOps f) (some (name, ipos, iend)) pos e p =
          .ok q →
      let distributeJumpIp := p.getOPs.length + c.length + 1
      let relativeTo := distributeJumpIp + 4 + 1 + c.length + x.length + 2
      let trueJumpAddressIp := relativeTo + 4 + t.length + 1
      let falseProgram := trueJumpAddressIp + 4 + 1
      let falseEndIp := trueJumpAddressIp + 4 + f.length
      let currentIp := falseEndIp + 1
      q.getOPs =
        p.getOPs ++ c ++ [OP.Distribute.code] ++
        uint32Bytes (falseEndIp - distributeJumpIp + 6) ++
        [OP.Frame.code] ++ c ++ x ++ [OP.Extends.code] ++
        [OP.JumpCondition.code] ++
        int32Bytes ((falseProgram : Int) - (relativeTo : Int)) ++
        t ++ [OP.Jump.code] ++
        int32Bytes ((falseEndIp : Int) - (trueJumpAddressIp : Int) + 1) ++
        f ++ [OP.FrameReturnJump.code] ++
        int32Bytes (-((currentIp : Int) - (distributeJumpIp : Int)))) := by
  constructor
  · intro q h
    rw [condNonDist_red] at h
    injection h with h
    subst h
    exact condNonDist_getOPs p hv c x t f pos e
  · intro q h
    rw [condDist_red] at h
    injection h with h
    subst h
    exact condDist_getOPs p hv c x t f name ipos iend pos e

/-- Witness for `conditional_backpatch`: the empty program with
one-byte lowerings, in both the non-distributive and the distributive
case. -/
theorem conditional_backpatch_witness :
    ((Compiler.handleConditionalType (appendOps [1]) (appendOps [2])
        (appendOps [3]) (appendOps [4]) none 0 0 ({} : Program) =
        .ok (condNonDistResult [1] [2] [3] [4] 0 0 {})) ∧
      (condNonDistResult [1] [2] [3] [4] 0 0 ({} : Program)).getOPs =
        [OP.Frame.code, 1, 2, OP.Extends.code, OP.JumpCondition.code] ++
        int32Bytes 11 ++ [3, OP.Jump.code] ++ int32Bytes 6 ++
        [4, OP.FrameEnd.code]) ∧
    ((Compiler.handleConditionalType (appendOps [1]) (appendOps [2])
        (appendOps [3]) (appendOps [4]) (some ("T", 0, 0)) 0 0
        ({} : Program) =
        .ok (condDistResult [1] [2] [3] [4] "T" 0 0 0 0 {})) ∧
      (condDistResult [1] [2] [3] [4] "T" 0 0 0 0 ({} : Program)).getOPs =
        [1, OP.Distribute.code] ++ uint32Bytes 26 ++
        [OP.Frame.code, 1, 2, OP.Extends.code, OP.JumpCondition.code] ++
        int32Bytes 11 ++ [3, OP.Jump.code] ++ int32Bytes 6 ++
        [4, OP.FrameReturnJump.code] ++ int32Bytes (-21)) :=
  ⟨⟨condNonDist_red [1] [2] [3] [4] 0 0 {},
    ((conditional_backpatch {} (fun i hi => absurd hi (List.not_mem_nil i)) [1] [2] [3] [4] "T" 0 0 0 0).1
      (condNonDistResult [1] [2] [3] [4] 0 0 {})
      (condNonDist_red [1] [2] [3] [4] 0 0 {})).trans (by decide)⟩,
   ⟨condDist_red [1] [2] [3] [4] "T" 0 0 0 0 {},
    ((conditional_backpatch {} (fun i hi => absurd hi (List.not_mem_nil i)) [1] [2] [3] [4] "T" 0 0 0 0).2
      (condDistResult [1] [2] [3] [4] "T" 0 0 0 0 {})
      (condDist_red [1] [2] [3] [4] "T" 0 0 0 0 {})).trans (by decide)⟩⟩

end Checker
